import Mathlib

/-!
Verification development for the Valley Legend client-side game-state engine
(src/frontend/app/page.tsx) and the Go save-manager backend (src/savemanager.go).

The TypeScript reactive state is embedded as a single `GameState` structure;
each React handler / effect body becomes a pure transition function on it.
JavaScript numbers are modelled as rationals (`ℚ`); `x.toFixed(1)` becomes
rounding to one decimal (half away from zero on the nonnegative values it is
applied to); record-typed deltas (`ResourceDelta`) become association lists so
that `Object.entries` iteration and `delta[key]` lookup are both faithful.
Timer-driven effects are modelled as explicit events; the `Math.random()` calls
of the attrition effect are abstracted into a per-index departure oracle.
-/

set_option maxHeartbeats 1000000

namespace ValleyLegend

/-- The fixed enumerated set of resource keys (type `ResourceKey` in page.tsx). -/
inductive ResourceKey
  | sunleaf | wood | stone | science | energy | execution
  deriving DecidableEq, Repr, Fintype

/-- Enumeration order of the six resources: the order of `INITIAL_RESOURCES`
and the insertion order of every resource-keyed record literal in the source
(`resourceWorkers`, `manualCooldowns`, ...), hence the `Object.keys` order. -/
def ResourceKey.all : List ResourceKey :=
  [.sunleaf, .wood, .stone, .science, .energy, .execution]

/-- A total map keyed by `ResourceKey`, kept as a flat structure so that
equality of states stays decidable. -/
structure ResMap (α : Type) where
  sunleaf : α
  wood : α
  stone : α
  science : α
  energy : α
  execution : α
  deriving DecidableEq, Repr

def ResMap.get (m : ResMap α) : ResourceKey → α
  | .sunleaf => m.sunleaf
  | .wood => m.wood
  | .stone => m.stone
  | .science => m.science
  | .energy => m.energy
  | .execution => m.execution

def ResMap.set (m : ResMap α) (k : ResourceKey) (v : α) : ResMap α :=
  match k with
  | .sunleaf => { m with sunleaf := v }
  | .wood => { m with wood := v }
  | .stone => { m with stone := v }
  | .science => { m with science := v }
  | .energy => { m with energy := v }
  | .execution => { m with execution := v }

/-- Build a `ResMap` from a function on keys. -/
def ResMap.ofFun (f : ResourceKey → α) : ResMap α :=
  ⟨f .sunleaf, f .wood, f .stone, f .science, f .energy, f .execution⟩

@[simp] theorem ResMap.get_ofFun (f : ResourceKey → α) (k : ResourceKey) :
    (ResMap.ofFun f).get k = f k := by cases k <;> rfl

@[simp] theorem ResMap.get_set_self (m : ResMap α) (k : ResourceKey) (v : α) :
    (m.set k v).get k = v := by cases k <;> rfl

theorem ResMap.get_set_ne (m : ResMap α) (k k' : ResourceKey) (v : α) (h : k' ≠ k) :
    (m.set k v).get k' = m.get k' := by cases k <;> cases k' <;> first | rfl | exact absurd rfl h

/-- The mutable, per-resource part of a `Resource` object (`amount`, `rate`,
`capacity`); labels and icons are static presentation data. -/
structure ResData where
  amount : ℚ
  rate : ℚ
  capacity : ℚ
  deriving DecidableEq, Repr

/-- District identifiers (the five entries of the `DISTRICTS` catalog). -/
inductive DistrictId
  | terracedFields | lumberGroves | auroraForge | moonwaterArchives | skyHarbor
  deriving DecidableEq, Repr

def DistrictId.all : List DistrictId :=
  [.terracedFields, .lumberGroves, .auroraForge, .moonwaterArchives, .skyHarbor]

/-- The `id` string of each district in the catalog. -/
def DistrictId.name : DistrictId → String
  | .terracedFields => "terraced-fields"
  | .lumberGroves => "lumber-groves"
  | .auroraForge => "aurora-forge"
  | .moonwaterArchives => "moonwater-archives"
  | .skyHarbor => "sky-harbor"

structure DistMap (α : Type) where
  terracedFields : α
  lumberGroves : α
  auroraForge : α
  moonwaterArchives : α
  skyHarbor : α
  deriving DecidableEq, Repr

def DistMap.get (m : DistMap α) : DistrictId → α
  | .terracedFields => m.terracedFields
  | .lumberGroves => m.lumberGroves
  | .auroraForge => m.auroraForge
  | .moonwaterArchives => m.moonwaterArchives
  | .skyHarbor => m.skyHarbor

def DistMap.ofFun (f : DistrictId → α) : DistMap α :=
  ⟨f .terracedFields, f .lumberGroves, f .auroraForge, f .moonwaterArchives, f .skyHarbor⟩

@[simp] theorem DistMap.distGet_ofFun (f : DistrictId → α) (i : DistrictId) :
    (DistMap.ofFun f).get i = f i := by cases i <;> rfl

/-- The mutable part of a `District` (`buildingCount`, `progress`, `stability`). -/
structure DistData where
  buildingCount : ℕ
  progress : ℚ
  stability : ℚ
  deriving DecidableEq, Repr

/-- A resource delta / cost record, kept as the association list of the object
literal's entries so that `Object.entries` iteration order and key lookup are
both preserved. -/
def ResourceDelta := List (ResourceKey × ℚ)

instance : DecidableEq ResourceDelta := by unfold ResourceDelta; infer_instance

/-- `delta[key]`, `undefined` (here `0`) for keys absent from the literal.
In the source a `0` entry and an absent entry behave identically under the
`if (!change)` falsiness test. -/
def ResourceDelta.lookup (d : ResourceDelta) (k : ResourceKey) : ℚ :=
  (List.lookup k d).getD 0

/-- `productionBoost` static table: per-resource rate contribution per
building, per district. -/
def districtBoost : DistrictId → ResourceDelta
  | .terracedFields => [(.sunleaf, 1/2)]
  | .lumberGroves => [(.wood, 3/2)]
  | .auroraForge => [(.stone, 3/10)]
  | .moonwaterArchives => [(.science, 1/5)]
  | .skyHarbor => [(.energy, 2/5)]

/-- `expansionCost` static table. -/
def districtExpansionCost : DistrictId → ResourceDelta
  | .terracedFields => [(.sunleaf, -10), (.wood, -5)]
  | .lumberGroves => [(.sunleaf, -30), (.wood, -10)]
  | .auroraForge => [(.wood, -8), (.stone, -6)]
  | .moonwaterArchives => [(.stone, -10), (.science, -4)]
  | .skyHarbor => [(.wood, -12), (.energy, -6)]

inductive ToolType
  | saw | pickaxe | shears
  deriving DecidableEq, Repr

structure ToolMap (α : Type) where
  saw : α
  pickaxe : α
  shears : α
  deriving DecidableEq, Repr

def ToolMap.get (m : ToolMap α) : ToolType → α
  | .saw => m.saw
  | .pickaxe => m.pickaxe
  | .shears => m.shears

def ToolMap.set (m : ToolMap α) (t : ToolType) (v : α) : ToolMap α :=
  match t with
  | .saw => { m with saw := v }
  | .pickaxe => { m with pickaxe := v }
  | .shears => { m with shears := v }

inductive FacilityId
  | cabin | cityHall
  deriving DecidableEq, Repr

def FacilityId.all : List FacilityId := [.cabin, .cityHall]

def FacilityId.name : FacilityId → String
  | .cabin => "cabin"
  | .cityHall => "city-hall"

structure FacMap (α : Type) where
  cabin : α
  cityHall : α
  deriving DecidableEq, Repr

def FacMap.get (m : FacMap α) : FacilityId → α
  | .cabin => m.cabin
  | .cityHall => m.cityHall

inductive SkillType
  | mining | gathering
  deriving DecidableEq, Repr

def SkillType.all : List SkillType := [.mining, .gathering]

structure SkillMap (α : Type) where
  mining : α
  gathering : α
  deriving DecidableEq, Repr

def SkillMap.get (m : SkillMap α) : SkillType → α
  | .mining => m.mining
  | .gathering => m.gathering

/-- Mutable part of a `Skill` (`level`, `experience`); `maxLevel` is the
constant 100 for both catalog skills. -/
structure SkillData where
  level : ℚ
  experience : ℚ
  deriving DecidableEq, Repr

def SKILL_EXP_PER_LEVEL : ℚ := 100
def MAX_SKILL_LEVEL : ℚ := 100

/-- `SKILL_RESOURCE_MAP`. -/
def SKILL_RESOURCE_MAP : ResourceKey → Option SkillType
  | .sunleaf => some .gathering
  | .wood => some .gathering
  | .stone => some .mining
  | .science => none
  | .energy => some .gathering
  | .execution => none

/-- Initial `amount`/`rate`/`capacity` of the six resources
(`INITIAL_RESOURCES`). -/
def INITIAL_RESOURCES : ResMap ResData :=
  ⟨⟨0, 0, 40⟩, ⟨0, 0, 40⟩, ⟨0, 0, 30⟩, ⟨0, 0, 25⟩, ⟨0, 0, 20⟩, ⟨0, 0, 10⟩⟩

/-- Initial mutable district data (`DISTRICTS`: buildingCount 0, progress 0,
stability 0 for all five). -/
def INITIAL_DISTRICTS : DistMap DistData :=
  ⟨⟨0, 0, 0⟩, ⟨0, 0, 0⟩, ⟨0, 0, 0⟩, ⟨0, 0, 0⟩, ⟨0, 0, 0⟩⟩

def INITIAL_SKILLS : SkillMap SkillData := ⟨⟨1, 0⟩, ⟨1, 0⟩⟩

def INITIAL_FACILITY_COUNTS : FacMap ℕ := ⟨0, 0⟩

/-- Item recipe catalog (`RECIPES`): id, cost, craftTime, capacityBoost,
requiredStage. -/
structure Recipe where
  id : String
  cost : ResourceDelta
  craftTime : ℚ
  capacityBoost : ℚ
  requiredStage : ℕ
  deriving DecidableEq

def RECIPES : List Recipe :=
  [ ⟨"storage-chest", [(.wood, -10)], 60, 10, 0⟩,
    ⟨"reinforced-vault", [(.wood, -20), (.stone, -15)], 120, 25, 2⟩ ]

/-- Tool recipe catalog (`TOOL_RECIPES`): id, cost, craftTime, toolType,
harvestBonus, cooldownReduction, requiredStage. -/
structure ToolRecipe where
  id : String
  cost : ResourceDelta
  craftTime : ℚ
  toolType : ToolType
  harvestBonus : ResourceDelta
  cooldownReduction : ℤ
  requiredStage : ℕ
  deriving DecidableEq

def TOOL_RECIPES : List ToolRecipe :=
  [ ⟨"wooden-saw", [(.wood, -5)], 30, .saw, [(.wood, 1)], 5, 0⟩,
    ⟨"stone-saw", [(.wood, -8), (.stone, -6)], 45, .saw, [(.wood, 2)], 8, 1⟩,
    ⟨"celestial-saw", [(.wood, -12), (.energy, -8)], 60, .saw, [(.wood, 3)], 12, 2⟩,
    ⟨"alloy-saw", [(.wood, -15), (.stone, -10), (.energy, -5)], 90, .saw, [(.wood, 5)], 15, 3⟩,
    ⟨"wooden-pickaxe", [(.wood, -6)], 30, .pickaxe, [(.stone, 1)], 5, 0⟩,
    ⟨"stone-pickaxe", [(.wood, -5), (.stone, -8)], 45, .pickaxe, [(.stone, 2)], 8, 1⟩,
    ⟨"celestial-pickaxe", [(.wood, -8), (.stone, -10), (.energy, -6)], 60, .pickaxe, [(.stone, 4)], 12, 2⟩,
    ⟨"alloy-pickaxe", [(.wood, -10), (.stone, -15), (.energy, -8)], 90, .pickaxe, [(.stone, 6)], 15, 3⟩,
    ⟨"wooden-shears", [(.wood, -4)], 25, .shears, [(.sunleaf, 2)], 5, 0⟩,
    ⟨"stone-shears", [(.wood, -6), (.stone, -5)], 40, .shears, [(.sunleaf, 4)], 8, 1⟩,
    ⟨"celestial-shears", [(.wood, -8), (.stone, -6), (.energy, -5)], 55, .shears, [(.sunleaf, 6)], 12, 2⟩,
    ⟨"alloy-shears", [(.wood, -10), (.stone, -8), (.energy, -6)], 80, .shears, [(.sunleaf, 8)], 15, 3⟩ ]

/-- Facility catalog (`FACILITIES`): cost, capacity, requiredStage. -/
structure Facility where
  id : FacilityId
  cost : ResourceDelta
  capacity : ℕ
  requiredStage : ℕ
  deriving DecidableEq

def FACILITIES : List Facility :=
  [ ⟨.cabin, [(.wood, -20)], 2, 0⟩,
    ⟨.cityHall, [(.sunleaf, -40), (.wood, -10)], 0, 0⟩ ]

/-- Council action catalog (`ACTIONS`): id, optional boost duration (seconds),
delta, rateDelta, capacityDelta, requiredStage. -/
structure CouncilAction where
  id : String
  duration : Option ℕ
  delta : Option ResourceDelta
  rateDelta : Option ResourceDelta
  capacityDelta : Option ResourceDelta
  requiredStage : ℕ
  deriving DecidableEq

def ACTIONS : List CouncilAction :=
  [ ⟨"forage-sunleaf", some 300, some [(.execution, -5)], some [(.sunleaf, 1/5)], none, 0⟩,
    ⟨"reinforce-trusses", none, some [(.execution, -3)], none, some [(.wood, 120)], 2⟩,
    ⟨"archive-colloquium", none, some [(.execution, -2), (.science, 24)], some [(.science, 8/5)], none, 1⟩,
    ⟨"ignite-furnaces", none, some [(.execution, -3), (.stone, 28)], some [(.stone, 9/5)], none, 3⟩ ]

/-- `MANUAL_HARVEST_REWARDS`. -/
def MANUAL_HARVEST_REWARDS : ResourceKey → ResourceDelta
  | .sunleaf => [(.sunleaf, 3)]
  | .wood => [(.wood, 1)]
  | .stone => [(.stone, 2)]
  | .science => [(.science, 1)]
  | .energy => [(.energy, 1)]
  | .execution => [(.execution, 1/2)]

def MANUAL_HARVEST_COOLDOWN_SECONDS : ℤ := 30

def SUNLEAF_SEASON_MULTIPLIERS : List ℚ := [12/10, 12/10, 8/10, 5/10]
def WAGE_PER_TENANT_PER_DAY : ℚ := 5
def DAYS_PER_SEASON : ℕ := 91
def DAYS_PER_YEAR : ℕ := 365
def PHASES_LENGTH : ℕ := 4

/-- Tutorial goal: resource, target, metric (`amount` unless `capacity`). -/
inductive GoalMetric
  | amount | capacity
  deriving DecidableEq

structure TutorialGoal where
  resource : ResourceKey
  target : ℚ
  metric : GoalMetric
  deriving DecidableEq

structure TutorialStage where
  index : ℕ
  goals : List TutorialGoal
  deriving DecidableEq

/-- `TUTORIAL_STAGES` (goal data only; text is presentation). -/
def TUTORIAL_STAGES : List TutorialStage :=
  [ ⟨0, [⟨.sunleaf, 20, .amount⟩]⟩,
    ⟨1, [⟨.stone, 30, .amount⟩, ⟨.science, 5, .amount⟩]⟩,
    ⟨2, [⟨.energy, 12, .amount⟩, ⟨.wood, 100, .capacity⟩]⟩,
    ⟨3, []⟩ ]

/-- `StoryTrigger` from lib/storyline.ts: a discriminated union.  The
`resource` key is a raw string there, compared against `resource.key`. -/
inductive StoryTrigger
  | stage (stage : ℕ)
  | purchase (itemId : String)
  | resource (key : String) (amount : ℚ)
  | milestone (label : String)
  deriving DecidableEq

structure StoryChapter where
  id : String
  trigger : StoryTrigger
  deriving DecidableEq

/-- `STORY_CHAPTERS` (id and trigger; narrative text is presentation). -/
def STORY_CHAPTERS : List StoryChapter :=
  [ ⟨"chapter-1", .stage 0⟩,
    ⟨"chapter-2", .resource "sunleaf" 80⟩,
    ⟨"chapter-3", .resource "wood" 15⟩,
    ⟨"chapter-4", .resource "stone" 10⟩,
    ⟨"chapter-5", .resource "wood" 150⟩,
    ⟨"chapter-6", .milestone "store-preview-opened"⟩,
    ⟨"chapter-7", .stage 2⟩,
    ⟨"chapter-8", .purchase "market-charter"⟩,
    ⟨"chapter-9", .stage 3⟩,
    ⟨"chapter-10", .milestone "all-chapters-complete"⟩ ]

/-- `resource.key` as the string it is serialized as / compared with. -/
def ResourceKey.name : ResourceKey → String
  | .sunleaf => "sunleaf"
  | .wood => "wood"
  | .stone => "stone"
  | .science => "science"
  | .energy => "energy"
  | .execution => "execution"

/-! ## Game state

One structure holding every mutable reactive cell of the `Home` component that
belongs to the simulation (presentation-only cells — dialogs, expanded cards,
selected material, navigation panel, the externally owned `language` context —
are out of scope, as is `activeBoosts`: the rate-reapplication effect driven by
it computes `rate := (rate - boost) + boost`, the identity on every resource,
so boosts never observably change state). -/

structure GameState where
  resources : ResMap ResData
  tick : ℕ
  stageIndex : ℕ
  showTutorial : Bool
  showIntroDialogue : Bool
  introIndex : ℕ
  unlockedChapters : List String
  activeChapterId : String
  milestones : List String
  completedPurchases : List String
  purchaseCounts : List (String × ℕ)
  civilizationLevel : ℕ
  manualCooldowns : ResMap ℤ
  manualHarvestActive : ResMap Bool
  log : List String
  districts : DistMap DistData
  craftingRecipe : Option String
  craftingProgress : ℚ
  pendingAllocation : Option (String × ℚ)
  equippedTools : ToolMap (Option String)
  facilityCounts : FacMap ℕ
  selectedFacilityId : Option String
  tenantRecruitCooldown : ℤ
  pendingTenants : ℤ
  tenantTimeout : ℤ
  assignedTenants : ℤ
  tenantMorale : List ℚ
  autoPayWages : Bool
  lastPayDay : ℤ
  skills : SkillMap SkillData
  resourceWorkers : ResMap ℤ
  manuallyUnlockedResources : List ResourceKey
  deriving DecidableEq

/-- The three default English log lines (`localizedDefaults`). -/
def localizedDefaults : List String :=
  [ "Council convenes as aurora veils fade over the valley.",
    "Moonwater scribes compile last cycle's harvest ledgers.",
    "Sky harbor crews report calm currents across the upper winds." ]

def initialChapterId : String := "chapter-1"

/-- The `useState` initial values of every modelled cell (also the state
`handleNewGame` resets to, up to the save-name bookkeeping). -/
def initialGameState : GameState where
  resources := INITIAL_RESOURCES
  tick := 0
  stageIndex := 0
  showTutorial := false
  showIntroDialogue := true
  introIndex := 0
  unlockedChapters := [initialChapterId]
  activeChapterId := initialChapterId
  milestones := []
  completedPurchases := []
  purchaseCounts := []
  civilizationLevel := 0
  manualCooldowns := ⟨0, 0, 0, 0, 0, 0⟩
  manualHarvestActive := ⟨false, false, false, false, false, false⟩
  log := localizedDefaults
  districts := INITIAL_DISTRICTS
  craftingRecipe := none
  craftingProgress := 0
  pendingAllocation := none
  equippedTools := ⟨none, none, none⟩
  facilityCounts := INITIAL_FACILITY_COUNTS
  selectedFacilityId := none
  tenantRecruitCooldown := 0
  pendingTenants := 0
  tenantTimeout := 0
  assignedTenants := 0
  tenantMorale := []
  autoPayWages := false
  lastPayDay := 0
  skills := INITIAL_SKILLS
  resourceWorkers := ⟨0, 0, 0, 0, 0, 0⟩
  manuallyUnlockedResources := []

/-- Prepend a log entry and keep at most six (`[entry, ...prev].slice(0, 6)`). -/
def pushLog (entry : String) (log : List String) : List String :=
  (entry :: log).take 6

/-! ## Derived time values (`useMemo` on `tick`) -/

/-- `cycleCount = Math.floor(tick / PHASES.length)`. -/
def cycleOf (tick : ℕ) : ℕ := tick / PHASES_LENGTH

/-- `dayCount = cycleCount + 1`. -/
def dayOf (tick : ℕ) : ℤ := (cycleOf tick : ℤ) + 1

/-- `seasonIndex = Math.floor(((dayCount - 1) % DAYS_PER_YEAR) / DAYS_PER_SEASON)`.
Note `(dayCount - 1) % 365` ranges over `0..364` and `364 / 91 = 4`, so this
index reaches `4`, one past the end of the 4-element season tables. -/
def seasonIndexOf (tick : ℕ) : ℕ := (cycleOf tick % DAYS_PER_YEAR) / DAYS_PER_SEASON

/-- `SUNLEAF_SEASON_MULTIPLIERS[seasonIndex] || 1`: JavaScript `||` yields `1`
both for an out-of-range index (`undefined`) and for a zero entry. -/
def sunleafMultiplierOf (i : ℕ) : ℚ :=
  match SUNLEAF_SEASON_MULTIPLIERS.get? i with
  | some m => if m = 0 then 1 else m
  | none => 1

/-! ## Resource ledger operations -/

/-- `Number(x.toFixed(1))` on the nonnegative values it is applied to:
round to one decimal, half away from zero. -/
def round1 (x : ℚ) : ℚ := (⌊x * 10 + 1/2⌋ : ℚ) / 10

/-- `applyResourceDelta`: for each resource with a truthy delta entry,
`amount := Number(clamp(amount + change, 0, capacity).toFixed(1))`. -/
def applyResourceDelta (list : ResMap ResData) (delta : ResourceDelta) : ResMap ResData :=
  ResMap.ofFun fun k =>
    let r := list.get k
    let change := delta.lookup k
    if change = 0 then r
    else
      let next := r.amount + change
      let limited := min r.capacity (max 0 next)
      { r with amount := round1 limited }

/-- `applyRateDelta`: `rate := Number((rate + change).toFixed(1))`. -/
def applyRateDelta (list : ResMap ResData) (delta : ResourceDelta) : ResMap ResData :=
  ResMap.ofFun fun k =>
    let r := list.get k
    let change := delta.lookup k
    if change = 0 then r
    else { r with rate := round1 (r.rate + change) }

/-- `applyCapacityDelta`: `capacity := Math.max(0, capacity + change)`. -/
def applyCapacityDelta (list : ResMap ResData) (delta : ResourceDelta) : ResMap ResData :=
  ResMap.ofFun fun k =>
    let r := list.get k
    let change := delta.lookup k
    if change = 0 then r
    else { r with capacity := max 0 (r.capacity + change) }

/-- `passiveRates` memo: for every resource, the sum over districts with a
nonzero building count of `productionBoost[resource] × buildingCount`
(zero boosts are skipped, which does not change the sum). -/
def passiveRate (districts : DistMap DistData) (k : ResourceKey) : ℚ :=
  (DistrictId.all.map fun i =>
    let dd := districts.get i
    if dd.buildingCount = 0 then 0
    else (districtBoost i).lookup k * dd.buildingCount).sum

/-! ## Per-tick production (the effect on `[tick, resourceWorkers, passiveRates,
seasonIndex]`, lines 2400–2429) -/

/-- The production update of one resource at the current tick. -/
def produceResource (s : GameState) (k : ResourceKey) : ResData :=
  let r := s.resources.get k
  let workers : ℚ := (s.resourceWorkers.get k : ℚ)
  let passive := passiveRate s.districts k
  let workerRate := r.rate * workers
  let totalRate0 := workerRate + passive
  let totalRate :=
    if k = .sunleaf then totalRate0 * sunleafMultiplierOf (seasonIndexOf s.tick)
    else totalRate0
  if totalRate ≤ 0 then r
  else
    -- `perPhaseGain = totalRate / (20 / 5)`
    let perPhaseGain := totalRate / 4
    if perPhaseGain = 0 then r
    else
      let nextAmount := r.amount + perPhaseGain
      let limited := min r.capacity (max 0 nextAmount)
      { r with amount := limited }

/-- The production effect body: a no-op on tick 0, otherwise each resource is
advanced by `produceResource`. -/
def productionEffect (s : GameState) : GameState :=
  if s.tick = 0 then s
  else { s with resources := ResMap.ofFun (produceResource s) }

/-- One firing of the 5-second phase timer: `setTick(prev => prev + 1)`
followed by the production effect re-running at the new tick. -/
def tickStep (s : GameState) : GameState :=
  productionEffect { s with tick := s.tick + 1 }

/-! ## Manual harvest -/

/-- `getEquippedToolBonus`: (harvest bonus, cooldown reduction) of the tool
equipped in the slot associated with the resource. -/
def getEquippedToolBonus (s : GameState) (k : ResourceKey) : ℚ × ℤ :=
  let toolType : Option ToolType :=
    match k with
    | .wood => some .saw
    | .stone => some .pickaxe
    | .sunleaf => some .shears
    | _ => none
  match toolType with
  | none => (0, 0)
  | some t =>
    match s.equippedTools.get t with
    | none => (0, 0)
    | some toolId =>
      match TOOL_RECIPES.find? (fun r => r.id = toolId) with
      | none => (0, 0)
      | some tool => (tool.harvestBonus.lookup k, tool.cooldownReduction)

/-- Skill gain of one manual harvest (`+10` experience, level-up when the
`level × 100` threshold is reached, capped at `maxLevel`); the Bool records
whether a level-up log entry is pushed. -/
def skillHarvestGain (sk : SkillData) : SkillData × Bool :=
  if sk.level ≥ MAX_SKILL_LEVEL then (sk, false)
  else
    let newExp := sk.experience + 10
    let requiredExp := sk.level * SKILL_EXP_PER_LEVEL
    if newExp ≥ requiredExp then
      (⟨sk.level + 1, newExp - requiredExp⟩, true)
    else ({ sk with experience := newExp }, false)

def skillLevelUpEntry (t : SkillType) : String :=
  (match t with | .mining => "Mining" | .gathering => "Gathering") ++
    " leveled up!"

def harvestLogEntry (k : ResourceKey) : String :=
  "Manual " ++ k.name ++ " harvest complete."

/-- The skills map after one harvest of `k` feeds the mapped skill. -/
def skillsAfterHarvest (s : GameState) (k : ResourceKey) : SkillMap SkillData :=
  match SKILL_RESOURCE_MAP k with
  | none => s.skills
  | some t =>
    match t with
    | .mining => { s.skills with mining := (skillHarvestGain (s.skills.get t)).1 }
    | .gathering => { s.skills with gathering := (skillHarvestGain (s.skills.get t)).1 }

/-- The log after a possible level-up entry from one harvest of `k`. -/
def logAfterSkill (s : GameState) (k : ResourceKey) : List String :=
  match SKILL_RESOURCE_MAP k with
  | none => s.log
  | some t =>
    if (skillHarvestGain (s.skills.get t)).2 then pushLog (skillLevelUpEntry t) s.log
    else s.log

/-- `handleManualHarvest`: rejected outright while the resource's cooldown is
positive; otherwise applies the (tool-boosted) reward, starts one cooldown
window of `max(5, 30 - cooldownReduction)` seconds, marks the cooldown active,
feeds the mapped skill and pushes log entries. -/
def handleManualHarvest (s : GameState) (k : ResourceKey) : GameState :=
  if s.manualCooldowns.get k > 0 then s
  else
    let baseReward := MANUAL_HARVEST_REWARDS k
    let bonus := (getEquippedToolBonus s k).1
    let cooldownReduction := (getEquippedToolBonus s k).2
    -- boostedReward: each key of the reward literal gets `+ bonus`
    let boostedReward : ResourceDelta := baseReward.map fun p => (p.1, p.2 + bonus)
    { s with
      resources := applyResourceDelta s.resources boostedReward
      manualCooldowns :=
        s.manualCooldowns.set k (max 5 (MANUAL_HARVEST_COOLDOWN_SECONDS - cooldownReduction))
      manualHarvestActive := s.manualHarvestActive.set k true
      skills := skillsAfterHarvest s k
      log := pushLog (harvestLogEntry k) (logAfterSkill s k) }

/-! ## Affordability predicates -/

/-- `canAffordRecipe` / `canAffordToolRecipe` / `canAffordFacility` /
`canAffordExpansion`: `Object.entries(cost).every(([key, cost]) =>
amount + cost >= 0)` — only the keys present in the cost literal are checked. -/
def canAffordDelta (resources : ResMap ResData) (cost : ResourceDelta) : Bool :=
  cost.all fun p => decide (0 ≤ (resources.get p.1).amount + p.2)

/-- `canExecute` for council actions: every resource key is inspected
(`action.delta?.[key] ?? 0`), nonnegative entries pass unconditionally. -/
def canExecute (resources : ResMap ResData) (a : CouncilAction) : Bool :=
  match a.delta with
  | none => true
  | some delta =>
    ResourceKey.all.all fun k =>
      let change := delta.lookup k
      decide (0 ≤ change) || decide (0 ≤ (resources.get k).amount + change)

/-! ## Crafting -/

def craftStartEntry (id : String) : String := "Started crafting " ++ id ++ "."
def craftItemDoneEntry (id : String) : String :=
  id ++ " crafting complete; allocate capacity boost."
def craftToolDoneEntry (id : String) : String :=
  id ++ " crafting complete; equipped."

/-- `handleStartCraft` (item recipes): requires a known recipe, affordability,
and an empty craft slot; deducts the cost immediately. -/
def handleStartCraft (s : GameState) (recipeId : String) : GameState :=
  match RECIPES.find? (fun r => r.id = recipeId) with
  | none => s
  | some recipe =>
    if ¬ canAffordDelta s.resources recipe.cost ∨ s.craftingRecipe ≠ none then s
    else
      { s with
        resources := applyResourceDelta s.resources recipe.cost
        craftingRecipe := some recipeId
        craftingProgress := 0
        log := pushLog (craftStartEntry recipeId) s.log }

/-- `handleStartToolCraft` (tool recipes): same single-slot discipline. -/
def handleStartToolCraft (s : GameState) (recipeId : String) : GameState :=
  match TOOL_RECIPES.find? (fun r => r.id = recipeId) with
  | none => s
  | some recipe =>
    if ¬ canAffordDelta s.resources recipe.cost ∨ s.craftingRecipe ≠ none then s
    else
      { s with
        resources := applyResourceDelta s.resources recipe.cost
        craftingRecipe := some recipeId
        craftingProgress := 0
        log := pushLog (craftStartEntry recipeId) s.log }

/-- One second of the crafting-progress interval (lines 2543–2583): guarded by
an active recipe and `craftingProgress < 100`; progress advances by 1; on
reaching `craftTime` an item recipe produces a pending capacity allocation and
a tool recipe is equipped into its tool-type slot, the craft slot is freed and
progress resets — no resource is touched. -/
def craftSecond (s : GameState) : GameState :=
  match s.craftingRecipe with
  | none => s
  | some rid =>
    if s.craftingProgress ≥ 100 then s
    else
      let recipe := RECIPES.find? (fun r => r.id = rid)
      let toolRecipe := TOOL_RECIPES.find? (fun r => r.id = rid)
      let craftTime : Option ℚ :=
        match recipe, toolRecipe with
        | some r, _ => some r.craftTime
        | none, some t => some t.craftTime
        | none, none => none
      match craftTime with
      | none => s
      | some ct =>
        let next := s.craftingProgress + 1
        if next ≥ ct then
          match recipe, toolRecipe with
          | some r, _ =>
            { s with
              pendingAllocation := some (rid, r.capacityBoost)
              craftingRecipe := none
              craftingProgress := 0
              log := pushLog (craftItemDoneEntry rid) s.log }
          | none, some t =>
            { s with
              equippedTools := s.equippedTools.set t.toolType (some t.id)
              craftingRecipe := none
              craftingProgress := 0
              log := pushLog (craftToolDoneEntry rid) s.log }
          | none, none => s
        else { s with craftingProgress := next }

/-- `handleAllocateCapacity`: consumes the pending allocation and raises the
chosen resource's capacity by the stored boost. -/
def handleAllocateCapacity (s : GameState) (k : ResourceKey) : GameState :=
  match s.pendingAllocation with
  | none => s
  | some (recipeId, boost) =>
    match RECIPES.find? (fun r => r.id = recipeId) with
    | none => s
    | some _ =>
      let r := s.resources.get k
      { s with
        resources := s.resources.set k { r with capacity := r.capacity + boost }
        pendingAllocation := none
        log := pushLog (recipeId ++ " allocated to " ++ k.name ++ ".") s.log }

/-! ## Districts -/

/-- `handleExpand`: pay the expansion cost, add the district's production
boost to the base rates, increment its building count. -/
def handleExpand (s : GameState) (districtId : String) : GameState :=
  match DistrictId.all.find? (fun i => i.name = districtId) with
  | none => s
  | some i =>
    if ¬ canAffordDelta s.resources (districtExpansionCost i) then s
    else
      let updated := applyRateDelta
        (applyResourceDelta s.resources (districtExpansionCost i)) (districtBoost i)
      let dd := s.districts.get i
      let districts1 := DistMap.ofFun fun j =>
        if j = i then { dd with buildingCount := dd.buildingCount + 1 } else s.districts.get j
      { s with
        resources := updated
        districts := districts1
        log := pushLog (districtId ++ " expansion complete.") s.log }

/-- `handleDemolish`: requires a positive building count; subtracts the boost
from the base rates and decrements the count (no refund). -/
def handleDemolish (s : GameState) (districtId : String) : GameState :=
  match DistrictId.all.find? (fun i => i.name = districtId) with
  | none => s
  | some i =>
    let dd := s.districts.get i
    if dd.buildingCount = 0 then s
    else
      let negativeBoost : ResourceDelta := (districtBoost i).map fun p => (p.1, -p.2)
      let districts1 := DistMap.ofFun fun j =>
        if j = i then { dd with buildingCount := dd.buildingCount - 1 } else s.districts.get j
      { s with
        resources := applyRateDelta s.resources negativeBoost
        districts := districts1
        log := pushLog (districtId ++ " demolition complete.") s.log }

/-! ## Facilities, tenants, workers, wages -/

/-- `handleBuildFacility`: stage gate, affordability, cost, count increment. -/
def handleBuildFacility (s : GameState) (facilityId : String) : GameState :=
  match FACILITIES.find? (fun f => f.id.name = facilityId) with
  | none => s
  | some facility =>
    if s.stageIndex < facility.requiredStage then s
    else if ¬ canAffordDelta s.resources facility.cost then s
    else
      let counts1 : FacMap ℕ :=
        match facility.id with
        | .cabin => { s.facilityCounts with cabin := s.facilityCounts.cabin + 1 }
        | .cityHall => { s.facilityCounts with cityHall := s.facilityCounts.cityHall + 1 }
      { s with
        resources := applyResourceDelta s.resources facility.cost
        facilityCounts := counts1
        log := pushLog ("Constructed " ++ facilityId ++ ".") s.log }

/-- `totalHousingCapacity = Σ over FACILITIES of count × capacity`. -/
def totalHousingCapacity (s : GameState) : ℤ :=
  (FACILITIES.map fun f => (s.facilityCounts.get f.id : ℤ) * f.capacity).sum

/-- `availableHousing = totalHousingCapacity - assignedTenants`. -/
def availableHousing (s : GameState) : ℤ :=
  totalHousingCapacity s - s.assignedTenants

/-- `hasCityHall = facilityCounts["city-hall"] > 0`. -/
def hasCityHall (s : GameState) : Bool := s.facilityCounts.cityHall > 0

/-- `handleRecruitTenants`: requires a city hall and a cold recruitment
cooldown; queues 5 pending tenants, 300 s recruitment cooldown, 120 s
acceptance timeout. -/
def handleRecruitTenants (s : GameState) : GameState :=
  if ¬ hasCityHall s then s
  else if s.tenantRecruitCooldown > 0 then s
  else
    { s with
      pendingTenants := s.pendingTenants + 5
      tenantRecruitCooldown := 300
      tenantTimeout := 120
      log := pushLog "Recruitment notice posted; 5 tenants arrived." s.log }

/-- `handleAssignTenants`: moves `min(pending, availableHousing)` tenants to
assigned, appends that many fresh 100-morale entries, and zeroes the pending
timeout unconditionally. -/
def handleAssignTenants (s : GameState) : GameState :=
  if s.pendingTenants ≤ 0 then s
  else
    let toAssign := min s.pendingTenants (availableHousing s)
    if toAssign ≤ 0 then s
    else
      { s with
        pendingTenants := s.pendingTenants - toAssign
        assignedTenants := s.assignedTenants + toAssign
        tenantMorale := s.tenantMorale ++ List.replicate toAssign.toNat 100
        tenantTimeout := 0
        log := pushLog "Assigned tenants to housing." s.log }

/-- `totalAssignedWorkers = Σ resourceWorkers`. -/
def totalAssignedWorkers (s : GameState) : ℤ :=
  (ResourceKey.all.map fun k => s.resourceWorkers.get k).sum

def idleWorkers (s : GameState) : ℤ := s.assignedTenants - totalAssignedWorkers s

/-- `handleAssignWorker`. -/
def handleAssignWorker (s : GameState) (k : ResourceKey) : GameState :=
  if idleWorkers s ≤ 0 then s
  else
    { s with
      resourceWorkers := s.resourceWorkers.set k (s.resourceWorkers.get k + 1)
      log := pushLog ("Assigned 1 worker to " ++ k.name ++ ".") s.log }

/-- `handleUnassignWorker`. -/
def handleUnassignWorker (s : GameState) (k : ResourceKey) : GameState :=
  let current := s.resourceWorkers.get k
  if current ≤ 0 then s
  else
    { s with
      resourceWorkers := s.resourceWorkers.set k (current - 1)
      log := pushLog ("Unassigned 1 worker from " ++ k.name ++ ".") s.log }

/-- `handlePayWages`: pays `assignedTenants × 5` sunleaf when affordable
(returning `true`), otherwise only logs the failure.  The deduction is a bare
subtraction on the sunleaf amount (no clamping, no rounding). -/
def handlePayWages (s : GameState) : GameState × Bool :=
  let totalWage := (s.assignedTenants : ℚ) * WAGE_PER_TENANT_PER_DAY
  let sunleafRes := s.resources.get .sunleaf
  if sunleafRes.amount < totalWage then
    ({ s with log := pushLog "Insufficient sunleaf to pay wages!" s.log }, false)
  else
    ({ s with
      resources := s.resources.set .sunleaf { sunleafRes with amount := sunleafRes.amount - totalWage }
      log := pushLog "Wages paid." s.log }, true)

/-- The daily wage effect (lines 2431–2454): skipped when the current day
equals `lastPayDay` or nobody is assigned; with auto-pay on, a successful
payment stamps `lastPayDay`; otherwise, once a full day has been skipped
(`currentDay > lastPayDay + 1`), every tenant's morale drops by 10 (floor 0)
and `lastPayDay` is stamped. -/
def wageEffect (s : GameState) : GameState :=
  let currentDay := dayOf s.tick
  if currentDay = s.lastPayDay ∨ s.assignedTenants = 0 then s
  else
    let attempt := if s.autoPayWages then handlePayWages s else (s, false)
    let s1 := attempt.1
    if attempt.2 then { s1 with lastPayDay := currentDay }
    else if currentDay > s1.lastPayDay + 1 then
      { s1 with
        tenantMorale := s1.tenantMorale.map fun m => max 0 (m - 10)
        log := pushLog "Wages not paid! All tenant morale decreased by 10%." s1.log
        lastPayDay := currentDay }
    else s1

/-! ## Attrition (lines 2456–2495)

`Math.random() < 0.5` is abstracted into a departure oracle: `o i = true`
means the roll of the tenant at index `i` comes out as "depart". -/

/-- Whether the tenant at `(i, morale)` departs this run. -/
def departs (o : ℕ → Bool) (p : ℕ × ℚ) : Bool :=
  decide (p.2 < 50) && o p.1

/-- One step of the forced unassignment loop: remove
`min(workers[key], toRemove)` from the key, unless the budget is spent
(`if (toRemove <= 0) break`). -/
def removeWorkersStep (acc : ResMap ℤ × ℤ) (k : ResourceKey) : ResMap ℤ × ℤ :=
  if acc.2 ≤ 0 then acc
  else
    let remove := min (acc.1.get k) acc.2
    (acc.1.set k (acc.1.get k - remove), acc.2 - remove)

/-- Unassign `excess` workers by walking the resource keys in enumeration
order (`for key of Object.keys(updated)`), removing from each until
absorbed. -/
def removeExcessWorkers (w : ResMap ℤ) (excess : ℤ) : ResMap ℤ :=
  (ResourceKey.all.foldl removeWorkersStep (w, excess)).1

/-- The attrition effect: gated on a nonzero tenant population and on
`currentDay ≠ lastPayDay` (there is no once-per-day marker of its own); each
low-morale tenant departs per its roll; departures shrink the morale array and
`assignedTenants`, and any worker excess is forcibly unassigned. -/
def attritionEffect (o : ℕ → Bool) (s : GameState) : GameState :=
  let currentDay := dayOf s.tick
  if s.assignedTenants = 0 ∨ s.tenantMorale = [] then s
  else if currentDay = s.lastPayDay then s
  else
    let indexed := s.tenantMorale.enum
    let departures := (indexed.filter (departs o)).length
    let updatedMorale := (indexed.filter fun p => ! departs o p).map Prod.snd
    if departures = 0 then s
    else
      let newAssigned := s.assignedTenants - departures
      let excessWorkers := totalAssignedWorkers s - newAssigned
      let workers1 :=
        if excessWorkers > 0 then removeExcessWorkers s.resourceWorkers excessWorkers
        else s.resourceWorkers
      { s with
        tenantMorale := updatedMorale
        assignedTenants := newAssigned
        resourceWorkers := workers1
        log := pushLog "Tenants left due to low morale." s.log }

/-! ## Story chapters (lines 2376–2398) -/

/-- `isTriggerMet`. -/
def isTriggerMet (s : GameState) : StoryTrigger → Bool
  | .stage n => decide (s.stageIndex ≥ n)
  | .resource key amt =>
    match ResourceKey.all.find? (fun k => k.name = key) with
    | some k => decide ((s.resources.get k).amount ≥ amt)
    | none => false
  | .milestone label => s.milestones.contains label
  | .purchase itemId => s.completedPurchases.contains itemId

/-- The chapter-unlock effect: every not-yet-unlocked chapter whose trigger is
satisfied is appended (in catalog order) in one batch; the last of the batch
becomes the active chapter; an empty batch leaves the state untouched. -/
def chapterUnlockEffect (s : GameState) : GameState :=
  if STORY_CHAPTERS = [] then s
  else
    let newlyUnlocked := STORY_CHAPTERS.filter fun c =>
      ¬ s.unlockedChapters.contains c.id ∧ isTriggerMet s c.trigger
    if newlyUnlocked = [] then s
    else
      { s with
        unlockedChapters := s.unlockedChapters ++ newlyUnlocked.map (·.id)
        activeChapterId := ((newlyUnlocked.getLast?).map (·.id)).getD s.activeChapterId
        log := pushLog "Landlord posts a new chapter." s.log }

/-! ## Tutorial stage machine (lines 2497–2526)

`nextStageRef` and the `setTimeout` live outside the reactive state; one
invocation of the effect is a function of the state and the current marker,
returning the new marker, whether an advancement log entry was pushed, and the
list of deferred `(delayMs, targetStage)` tasks scheduled by this invocation. -/

def goalValue (s : GameState) (g : TutorialGoal) : ℚ :=
  let r := s.resources.get g.resource
  match g.metric with
  | .capacity => r.capacity
  | .amount => r.amount

/-- `goals.every(...)` of the active stage. -/
def goalsMet (s : GameState) (stage : TutorialStage) : Bool :=
  stage.goals.all fun g => decide (goalValue s g ≥ g.target)

structure StageEffectOut where
  marker : ℕ
  logged : Bool
  scheduled : List (ℕ × ℕ)
  deriving DecidableEq

/-- One invocation of the stage-advance effect.  The log entry is deduplicated
through the marker, but the 750 ms deferred advance is scheduled on *every*
invocation whose goals are met (the `setTimeout` sits outside the marker
guard). -/
def stageAdvanceEffect (s : GameState) (marker : ℕ) : StageEffectOut :=
  match TUTORIAL_STAGES.get? s.stageIndex with
  | none => ⟨marker, false, []⟩
  | some activeStage =>
    if goalsMet s activeStage ∧ s.stageIndex < TUTORIAL_STAGES.length - 1 then
      let nextIndex := s.stageIndex + 1
      if marker ≠ nextIndex then ⟨nextIndex, true, [(750, nextIndex)]⟩
      else ⟨marker, false, [(750, nextIndex)]⟩
    else ⟨marker, false, []⟩

/-- The deferred task fired by one of the scheduled timeouts:
`setStageIndex(nextIndex); setShowTutorial(true)`. -/
def applyStageTimeout (s : GameState) (nextIndex : ℕ) : GameState :=
  { s with stageIndex := nextIndex, showTutorial := true }

/-! ## Remaining handlers and 1-second timers -/

/-- `RESOURCE_UNLOCK_DATA` costs (only `wood` and `execution` carry one). -/
def resourceUnlockCost : ResourceKey → Option ResourceDelta
  | .wood => some [(.sunleaf, -40)]
  | .execution => some [(.wood, -30)]
  | _ => none

/-- `handleUnlockResource`: pays the unlock tribute (checked over *all* six
resources with a `?? 0` default) and records the manual unlock. -/
def handleUnlockResource (s : GameState) (k : ResourceKey) : GameState :=
  match resourceUnlockCost k with
  | none => s
  | some cost =>
    let canAfford := ResourceKey.all.all fun r =>
      decide (0 ≤ (s.resources.get r).amount + cost.lookup r)
    if ¬ canAfford then s
    else
      { s with
        resources := applyResourceDelta s.resources cost
        manuallyUnlockedResources := s.manuallyUnlockedResources ++ [k]
        log := pushLog ("Unlocked " ++ k.name ++ ".") s.log }

/-- The resource pipeline of `handleAction`: `delta`, then `rateDelta` (only
for non-duration actions), then `capacityDelta`. -/
def handleActionResources (a : CouncilAction) (m : ResMap ResData) : ResMap ResData :=
  let r1 := match a.delta with
    | some d => applyResourceDelta m d
    | none => m
  let r2 := match a.rateDelta, a.duration with
    | some d, none => applyRateDelta r1 d
    | _, _ => r1
  match a.capacityDelta with
  | some d => applyCapacityDelta r2 d
  | none => r2

/-- `handleAction` for council directives: guarded by `canExecute`.  Duration
actions also record an `ActiveBoost`, whose only downstream consumer
recomputes `rate := (rate - boost) + boost` — the identity — so boosts are not
modelled further. -/
def handleAction (s : GameState) (actionId : String) : GameState :=
  match ACTIONS.find? (fun a => a.id = actionId) with
  | none => s
  | some a =>
    if ¬ canExecute s.resources a then s
    else
      { s with
        resources := handleActionResources a s.resources
        log := pushLog ("Enacted " ++ actionId ++ ".") s.log }

/-- One second of the manual-cooldown interval (lines 1385–1419): every key
whose cooldown is flagged active is decremented (`Math.max(0, c - 1)`); keys
that reach 0 are unflagged. -/
def cooldownSecond (s : GameState) : GameState :=
  let activeKeys := ResourceKey.all.filter fun k => s.manualHarvestActive.get k
  if activeKeys = [] then s
  else
    let cooldowns1 := ResMap.ofFun fun k =>
      if s.manualHarvestActive.get k then max 0 (s.manualCooldowns.get k - 1)
      else s.manualCooldowns.get k
    let active1 := ResMap.ofFun fun k =>
      if s.manualHarvestActive.get k ∧ max 0 (s.manualCooldowns.get k - 1) ≤ 0 then false
      else s.manualHarvestActive.get k
    { s with manualCooldowns := cooldowns1, manualHarvestActive := active1 }

/-- One second of the recruitment-cooldown interval. -/
def recruitCooldownSecond (s : GameState) : GameState :=
  if s.tenantRecruitCooldown ≤ 0 then s
  else { s with tenantRecruitCooldown := max 0 (s.tenantRecruitCooldown - 1) }

/-- One second of the pending-tenant timeout interval (lines 1433–1454): when
the countdown reaches 0 with tenants still pending, they are discarded. -/
def tenantTimeoutSecond (s : GameState) : GameState :=
  if s.tenantTimeout ≤ 0 ∨ s.pendingTenants ≤ 0 then s
  else
    let next := max 0 (s.tenantTimeout - 1)
    if next = 0 ∧ s.pendingTenants > 0 then
      { s with
        tenantTimeout := next
        pendingTenants := 0
        log := pushLog "Tenants left City Hall due to timeout." s.log }
    else { s with tenantTimeout := next }

/-! ## The event-step view

Every mutation of the running session — timer callbacks and user-action
handlers — as a single step function, used to state reachable-state
invariants. -/

inductive GameEvent
  | tick
  | productionRerun
  | harvest (k : ResourceKey)
  | unlockResource (k : ResourceKey)
  | expand (districtId : String)
  | demolish (districtId : String)
  | startCraft (recipeId : String)
  | startToolCraft (recipeId : String)
  | craftSecond
  | allocateCapacity (k : ResourceKey)
  | buildFacility (facilityId : String)
  | recruitTenants
  | assignTenants
  | assignWorker (k : ResourceKey)
  | unassignWorker (k : ResourceKey)
  | payWages
  | councilAction (actionId : String)
  | wageCheck
  | attrition (o : ℕ → Bool)
  | chapterScan
  | stageTimeout (nextIndex : ℕ)
  | cooldownSecond
  | recruitCooldownSecond
  | tenantTimeoutSecond

def step (s : GameState) : GameEvent → GameState
  | .tick => tickStep s
  | .productionRerun => productionEffect s
  | .harvest k => handleManualHarvest s k
  | .unlockResource k => handleUnlockResource s k
  | .expand id => handleExpand s id
  | .demolish id => handleDemolish s id
  | .startCraft id => handleStartCraft s id
  | .startToolCraft id => handleStartToolCraft s id
  | .craftSecond => craftSecond s
  | .allocateCapacity k => handleAllocateCapacity s k
  | .buildFacility id => handleBuildFacility s id
  | .recruitTenants => handleRecruitTenants s
  | .assignTenants => handleAssignTenants s
  | .assignWorker k => handleAssignWorker s k
  | .unassignWorker k => handleUnassignWorker s k
  | .payWages => (handlePayWages s).1
  | .councilAction id => handleAction s id
  | .wageCheck => wageEffect s
  | .attrition o => attritionEffect o s
  | .chapterScan => chapterUnlockEffect s
  | .stageTimeout n => applyStageTimeout s n
  | .cooldownSecond => ValleyLegend.cooldownSecond s
  | .recruitCooldownSecond => ValleyLegend.recruitCooldownSecond s
  | .tenantTimeoutSecond => ValleyLegend.tenantTimeoutSecond s

/-! ## Persistence codec (`serializeState`, lines 1141–1178;
`deserializeState`, lines 1180–1307)

A parsed save document is modelled field by field: `some v` is a field that is
present with the expected JSON type, `none` one that is absent or carries a
mismatched type (both take the same code path in every `typeof`-guarded
restore).  `language` is serialized but owned by the external language
context and never restored, so it stays outside the state model. -/

structure ResEntry where
  key : Option ResourceKey
  amount : Option ℚ
  rate : Option ℚ
  capacity : Option ℚ
  deriving DecidableEq

structure DistEntry where
  id : Option DistrictId
  buildingCount : Option ℕ
  progress : Option ℚ
  stability : Option ℚ
  deriving DecidableEq

structure SkillEntry where
  skillType : Option SkillType
  level : Option ℚ
  experience : Option ℚ
  deriving DecidableEq

structure SaveDoc where
  version : Option ℕ
  resources : Option (List ResEntry)
  tick : Option ℕ
  stageIndex : Option ℕ
  showTutorial : Option Bool
  showIntroDialogue : Option Bool
  introIndex : Option ℕ
  unlockedChapters : Option (List String)
  activeChapterId : Option String
  milestones : Option (List String)
  completedPurchases : Option (List String)
  purchaseCounts : Option (List (String × ℕ))
  civilizationLevel : Option ℕ
  manualCooldowns : Option (ResMap ℤ)
  manualHarvestActive : Option (ResMap Bool)
  manualHarvestPending : Option (ResMap Bool)
  log : Option (List String)
  districts : Option (List DistEntry)
  craftingRecipe : Option String
  craftingProgress : Option ℚ
  equippedTools : Option (ToolMap (Option String))
  facilityCounts : Option (FacMap (Option ℕ))
  selectedFacilityId : Option String
  tenantRecruitCooldown : Option ℤ
  pendingTenants : Option ℤ
  tenantTimeout : Option ℤ
  assignedTenants : Option ℤ
  tenantMorale : Option (List ℚ)
  autoPayWages : Option Bool
  lastPayDay : Option ℤ
  skills : Option (List SkillEntry)
  resourceWorkers : Option (ResMap (Option ℤ))
  manuallyUnlockedResources : Option (List ResourceKey)
  deriving DecidableEq

/-- The document with every field absent (the hand-crafted `{}`). -/
def emptyDoc : SaveDoc :=
  ⟨none, none, none, none, none, none, none, none, none, none, none, none,
   none, none, none, none, none, none, none, none, none, none, none, none,
   none, none, none, none, none, none, none, none, none⟩

/-- `serializeState`: every modelled field written with its expected type. -/
def serializeState (s : GameState) : SaveDoc where
  version := some 1
  resources := some (ResourceKey.all.map fun k =>
    let r := s.resources.get k
    ⟨some k, some r.amount, some r.rate, some r.capacity⟩)
  tick := some s.tick
  stageIndex := some s.stageIndex
  showTutorial := some s.showTutorial
  showIntroDialogue := some s.showIntroDialogue
  introIndex := some s.introIndex
  unlockedChapters := some s.unlockedChapters
  activeChapterId := some s.activeChapterId
  milestones := some s.milestones
  completedPurchases := some s.completedPurchases
  purchaseCounts := some s.purchaseCounts
  civilizationLevel := some s.civilizationLevel
  manualCooldowns := some s.manualCooldowns
  manualHarvestActive := some s.manualHarvestActive
  manualHarvestPending := none
  log := some s.log
  districts := some (DistrictId.all.map fun i =>
    let dd := s.districts.get i
    ⟨some i, some dd.buildingCount, some dd.progress, some dd.stability⟩)
  craftingRecipe := s.craftingRecipe
  craftingProgress := some s.craftingProgress
  equippedTools := some s.equippedTools
  facilityCounts := some ⟨some s.facilityCounts.cabin, some s.facilityCounts.cityHall⟩
  selectedFacilityId := s.selectedFacilityId
  tenantRecruitCooldown := some s.tenantRecruitCooldown
  pendingTenants := some s.pendingTenants
  tenantTimeout := some s.tenantTimeout
  assignedTenants := some s.assignedTenants
  tenantMorale := some s.tenantMorale
  autoPayWages := some s.autoPayWages
  lastPayDay := some s.lastPayDay
  skills := some (SkillType.all.map fun t =>
    let sk := s.skills.get t
    ⟨some t, some sk.level, some sk.experience⟩)
  resourceWorkers := some (ResMap.ofFun fun k => some (s.resourceWorkers.get k))
  manuallyUnlockedResources := some s.manuallyUnlockedResources

/-- `deserializeState` applied to an already-parsed object document.  Fields
restored by ternaries fall back to fixed defaults; fields restored inside
`if (...)` blocks *without* an `else` (`manualCooldowns`,
`manualHarvestActive`, `equippedTools`, `craftingProgress`,
`manuallyUnlockedResources`) silently keep the pre-load session value
`prior`; `pendingAllocation` is not part of the document at all. -/
def deserializeState (prior : GameState) (d : SaveDoc) : GameState where
  resources :=
    match d.resources with
    | some entries =>
      ResMap.ofFun fun k =>
        let r0 := INITIAL_RESOURCES.get k
        match entries.find? (fun e => e.key = some k) with
        | none => r0
        | some e =>
          { amount := e.amount.getD r0.amount
            rate := e.rate.getD r0.rate
            capacity := e.capacity.getD r0.capacity }
    | none => INITIAL_RESOURCES
  tick := d.tick.getD 0
  stageIndex := d.stageIndex.getD 0
  showTutorial := d.showTutorial.getD false
  showIntroDialogue := d.showIntroDialogue.getD false
  introIndex := d.introIndex.getD 0
  unlockedChapters := d.unlockedChapters.getD []
  activeChapterId := d.activeChapterId.getD initialChapterId
  milestones := d.milestones.getD []
  completedPurchases := d.completedPurchases.getD []
  purchaseCounts := d.purchaseCounts.getD []
  civilizationLevel := d.civilizationLevel.getD 0
  manualCooldowns :=
    match d.manualCooldowns with
    | some v => v
    | none => prior.manualCooldowns
  manualHarvestActive :=
    match d.manualHarvestActive with
    | some v => v
    | none =>
      match d.manualHarvestPending with
      | some v => v
      | none => prior.manualHarvestActive
  log :=
    match d.log with
    | some l => l.take 6
    | none => localizedDefaults
  districts :=
    match d.districts with
    | some entries =>
      DistMap.ofFun fun i =>
        let d0 := INITIAL_DISTRICTS.get i
        match entries.find? (fun e => e.id = some i) with
        | none => d0
        | some e =>
          { buildingCount := e.buildingCount.getD d0.buildingCount
            progress := e.progress.getD d0.progress
            stability := e.stability.getD d0.stability }
    | none => INITIAL_DISTRICTS
  craftingRecipe := d.craftingRecipe
  craftingProgress :=
    match d.craftingProgress with
    | some v => v
    | none => prior.craftingProgress
  pendingAllocation := prior.pendingAllocation
  equippedTools :=
    match d.equippedTools with
    | some v => v
    | none => prior.equippedTools
  facilityCounts :=
    match d.facilityCounts with
    | some fc => ⟨fc.cabin.getD 0, fc.cityHall.getD 0⟩
    | none => INITIAL_FACILITY_COUNTS
  selectedFacilityId := d.selectedFacilityId
  tenantRecruitCooldown := d.tenantRecruitCooldown.getD 0
  pendingTenants := d.pendingTenants.getD 0
  tenantTimeout := d.tenantTimeout.getD 0
  assignedTenants := d.assignedTenants.getD 0
  tenantMorale := d.tenantMorale.getD []
  autoPayWages := d.autoPayWages.getD false
  lastPayDay := d.lastPayDay.getD 0
  skills :=
    match d.skills with
    | some entries =>
      let restore := fun (t : SkillType) =>
        let sk0 := INITIAL_SKILLS.get t
        match entries.find? (fun e => e.skillType = some t) with
        | none => sk0
        | some e =>
          { level :=
              match e.level with
              | some l => min MAX_SKILL_LEVEL l
              | none => sk0.level
            experience := e.experience.getD sk0.experience }
      ⟨restore .mining, restore .gathering⟩
    | none => INITIAL_SKILLS
  resourceWorkers :=
    match d.resourceWorkers with
    | some w => ResMap.ofFun fun k => (w.get k).getD 0
    | none => ⟨0, 0, 0, 0, 0, 0⟩
  manuallyUnlockedResources :=
    match d.manuallyUnlockedResources with
    | some v => v
    | none => prior.manuallyUnlockedResources

/-! ## Go persistence backend (src/savemanager.go)

Filesystem outcomes become explicit `Except` inputs: `GetAllSaves` consumes
the result of `ioutil.ReadDir(dataDir)`, `GetLastSave` the result of
`ioutil.ReadFile(.last_save)`.  The Go `(value, error)` return becomes a
`value × Option String` pair. -/

structure FileInfo where
  fileName : String
  isDir : Bool
  deriving DecidableEq

/-- `GetAllSaves`: a directory read error is swallowed into
`([]string{}, nil)`; otherwise non-directory `.json` entries are listed with
the extension stripped, always with a nil error. -/
def GetAllSaves (readDirResult : Except String (List FileInfo)) :
    List String × Option String :=
  match readDirResult with
  | .error _ => ([], none)
  | .ok files =>
    ((files.filter fun f => ¬ f.isDir ∧ f.fileName.endsWith ".json").map
      fun f => f.fileName.dropRight 5, none)

/-- `GetLastSave`: a read error on the `.last_save` sentinel is swallowed into
`("", nil)`; otherwise the file contents are returned with a nil error. -/
def GetLastSave (readFileResult : Except String String) : String × Option String :=
  match readFileResult with
  | .error _ => ("", none)
  | .ok data => (data, none)

/-! # Claims -/

/-! ## C10 — save-manager reads never error -/

/-- C10: `GetAllSaves` and `GetLastSave` never return an error for any
filesystem outcome; an unreadable data directory yields `([], nil)` and a
missing or unreadable `.last_save` sentinel yields `("", nil)`. -/
theorem saveManager_reads_never_error
    (rd : Except String (List FileInfo)) (rl : Except String String)
    (e e' : String) :
    (GetAllSaves rd).2 = none ∧ (GetLastSave rl).2 = none ∧
    GetAllSaves (Except.error e) = ([], none) ∧
    GetLastSave (Except.error e') = ("", none) := by
  refine ⟨?_, ?_, rfl, rfl⟩
  · cases rd <;> rfl
  · cases rl <;> rfl

/-! ## C8 — tenant assignment -/

/-- C8: with tenants pending and housing available, assignment moves
`min(pending, availableHousing)` tenants from pending to assigned, appends
that many fresh 100-morale entries, and resets `tenantTimeout` to 0 even when
tenants remain pending. -/
theorem assignTenants_spec (s : GameState)
    (hp : 0 < s.pendingTenants) (hh : 0 < availableHousing s) :
    (handleAssignTenants s).pendingTenants
        = s.pendingTenants - min s.pendingTenants (availableHousing s) ∧
    (handleAssignTenants s).assignedTenants
        = s.assignedTenants + min s.pendingTenants (availableHousing s) ∧
    (handleAssignTenants s).tenantMorale
        = s.tenantMorale
            ++ List.replicate (min s.pendingTenants (availableHousing s)).toNat 100 ∧
    (handleAssignTenants s).tenantTimeout = 0 := by
  have h1 : ¬ s.pendingTenants ≤ 0 := not_le.mpr hp
  have h2 : ¬ min s.pendingTenants (availableHousing s) ≤ 0 :=
    not_le.mpr (lt_min hp hh)
  simp only [handleAssignTenants, if_neg h1, if_neg h2]
  exact ⟨trivial, trivial, trivial, trivial⟩

/-- Scenario state for C8: 5 pending tenants, 2 cabins (housing 4) with one
tenant already assigned, so 3 slots are available. -/
def c8State : GameState :=
  { initialGameState with
    pendingTenants := 5
    assignedTenants := 1
    tenantMorale := [100]
    facilityCounts := ⟨2, 1⟩ }

theorem assignTenants_spec_witness :
    (0 < c8State.pendingTenants ∧ 0 < availableHousing c8State) ∧
    ((handleAssignTenants c8State).pendingTenants
        = c8State.pendingTenants - min c8State.pendingTenants (availableHousing c8State) ∧
      (handleAssignTenants c8State).assignedTenants
        = c8State.assignedTenants + min c8State.pendingTenants (availableHousing c8State) ∧
      (handleAssignTenants c8State).tenantMorale
        = c8State.tenantMorale
            ++ List.replicate (min c8State.pendingTenants (availableHousing c8State)).toNat 100 ∧
      (handleAssignTenants c8State).tenantTimeout = 0) :=
  ⟨⟨by decide, by decide⟩, assignTenants_spec c8State (by decide) (by decide)⟩

/-! ## C6 — manual harvest cooldown -/

/-- C6: a manual harvest while the resource's (nonnegative) cooldown is
nonzero changes nothing at all — no resource amounts, no skill experience, no
log entry; a successful harvest starts exactly one cooldown window, of
`max(5, MANUAL_HARVEST_COOLDOWN_SECONDS − cooldownReduction)` seconds
(30 s baseline), on that resource alone. -/
theorem manualHarvest_cooldown_spec (s : GameState) (k : ResourceKey) :
    (s.manualCooldowns.get k ≠ 0 → 0 ≤ s.manualCooldowns.get k →
        handleManualHarvest s k = s) ∧
    (s.manualCooldowns.get k = 0 →
      (handleManualHarvest s k).manualCooldowns.get k
          = max 5 (MANUAL_HARVEST_COOLDOWN_SECONDS - (getEquippedToolBonus s k).2) ∧
      (handleManualHarvest s k).manualHarvestActive.get k = true ∧
      ∀ k', k' ≠ k →
        (handleManualHarvest s k).manualCooldowns.get k' = s.manualCooldowns.get k' ∧
        (handleManualHarvest s k).manualHarvestActive.get k' = s.manualHarvestActive.get k') := by
  constructor
  · intro hnz hnn
    have hpos : s.manualCooldowns.get k > 0 := lt_of_le_of_ne hnn (Ne.symm hnz)
    simp only [handleManualHarvest, if_pos hpos]
  · intro hz
    have hneg : ¬ s.manualCooldowns.get k > 0 := by omega
    simp only [handleManualHarvest, if_neg hneg]
    refine ⟨ResMap.get_set_self _ _ _, ResMap.get_set_self _ _ _, fun k' hk => ?_⟩
    exact ⟨ResMap.get_set_ne _ _ _ _ hk, ResMap.get_set_ne _ _ _ _ hk⟩

/-- A state mid-cooldown (7 s remaining on sunleaf). -/
def c6State : GameState :=
  { initialGameState with manualCooldowns := ⟨7, 0, 0, 0, 0, 0⟩ }

theorem manualHarvest_cooldown_spec_witness :
    (c6State.manualCooldowns.get .sunleaf ≠ 0 ∧ 0 ≤ c6State.manualCooldowns.get .sunleaf ∧
      handleManualHarvest c6State .sunleaf = c6State) ∧
    (initialGameState.manualCooldowns.get .sunleaf = 0 ∧
      (handleManualHarvest initialGameState .sunleaf).manualCooldowns.get .sunleaf = 30) :=
  ⟨⟨by decide, by decide,
      (manualHarvest_cooldown_spec c6State .sunleaf).1 (by decide) (by decide)⟩,
   ⟨by decide,
      (((manualHarvest_cooldown_spec initialGameState .sunleaf).2 (by decide)).1).trans
        (by decide)⟩⟩

/-! ## C5 — single crafting slot, cost deducted once at start -/

/-- C5: starting any craft (item or tool) while one is in progress is a
rejected no-op; a successful start deducts the recipe cost exactly there; and
the per-second progress/completion step never touches the resources. -/
theorem crafting_single_slot_spec (s : GameState) (rid r0 : String) :
    (s.craftingRecipe = some r0 →
        handleStartCraft s rid = s ∧ handleStartToolCraft s rid = s) ∧
    (∀ recipe, RECIPES.find? (fun r => r.id = rid) = some recipe →
        canAffordDelta s.resources recipe.cost = true → s.craftingRecipe = none →
        (handleStartCraft s rid).resources = applyResourceDelta s.resources recipe.cost ∧
        (handleStartCraft s rid).craftingRecipe = some rid) ∧
    (∀ recipe, TOOL_RECIPES.find? (fun r => r.id = rid) = some recipe →
        canAffordDelta s.resources recipe.cost = true → s.craftingRecipe = none →
        (handleStartToolCraft s rid).resources = applyResourceDelta s.resources recipe.cost ∧
        (handleStartToolCraft s rid).craftingRecipe = some rid) ∧
    (craftSecond s).resources = s.resources := by
  refine ⟨?_, ?_, ?_, ?_⟩
  · intro hbusy
    constructor
    · cases hfind : RECIPES.find? (fun r => r.id = rid) with
      | none => simp [handleStartCraft, hfind]
      | some recipe =>
        have : s.craftingRecipe ≠ none := by rw [hbusy]; exact Option.some_ne_none r0
        simp [handleStartCraft, hfind, this]
    · cases hfind : TOOL_RECIPES.find? (fun r => r.id = rid) with
      | none => simp [handleStartToolCraft, hfind]
      | some recipe =>
        have : s.craftingRecipe ≠ none := by rw [hbusy]; exact Option.some_ne_none r0
        simp [handleStartToolCraft, hfind, this]
  · intro recipe hfind haff hfree
    simp [handleStartCraft, hfind, haff, hfree]
  · intro recipe hfind haff hfree
    simp [handleStartToolCraft, hfind, haff, hfree]
  · rw [craftSecond.eq_def]
    cases s.craftingRecipe with
    | none => rfl
    | some rid' =>
      dsimp only
      split
      · rfl
      · split
        · rfl
        · split
          · split <;> rfl
          · rfl

/-- A state able to afford the storage chest (12 timber on hand). -/
def c5State : GameState :=
  { initialGameState with
    resources := { INITIAL_RESOURCES with wood := ⟨12, 0, 40⟩ } }

theorem crafting_single_slot_spec_witness :
    ((handleStartCraft c5State "storage-chest").craftingRecipe = some "storage-chest" ∧
      handleStartCraft (handleStartCraft c5State "storage-chest") "storage-chest"
        = handleStartCraft c5State "storage-chest") ∧
    ((handleStartCraft c5State "storage-chest").resources.get .wood).amount = 2 := by
  refine ⟨⟨?_, ?_⟩, ?_⟩
  · exact ((crafting_single_slot_spec c5State "storage-chest" "storage-chest").2.1
      ⟨"storage-chest", [(.wood, -10)], 60, 10, 0⟩ (by with_unfolding_all decide)
      (by with_unfolding_all decide) (by with_unfolding_all decide)).2
  · exact ((crafting_single_slot_spec (handleStartCraft c5State "storage-chest")
      "storage-chest" "storage-chest").1 (by with_unfolding_all decide)).1
  · with_unfolding_all decide

/-! ## C4 — tutorial stage advance: deferred, but scheduled per re-fire -/

/-- Scenario state for C4: stage 0, `sunleaf.amount = 20` meets the stage-0
goal. -/
def c4State : GameState :=
  { initialGameState with
    resources := { INITIAL_RESOURCES with sunleaf := ⟨20, 0, 40⟩ } }

/-- C4 counterexample: two invocations of the goal-check effect before the
delay elapses schedule the 750 ms deferred advance twice — the
last-dispatched-next-stage marker deduplicates only the log entry, because the
`setTimeout` call sits outside the marker guard. -/
theorem stageAdvance_not_scheduled_once :
    (stageAdvanceEffect c4State 0).scheduled = [(750, 1)] ∧
    (stageAdvanceEffect c4State (stageAdvanceEffect c4State 0).marker).scheduled
      = [(750, 1)] ∧
    ((stageAdvanceEffect c4State 0).scheduled
        ++ (stageAdvanceEffect c4State (stageAdvanceEffect c4State 0).marker).scheduled).length
      ≠ 1 ∧
    (stageAdvanceEffect c4State 0).logged = true ∧
    (stageAdvanceEffect c4State (stageAdvanceEffect c4State 0).marker).logged = false := by
  with_unfolding_all decide

/-- C4 (amended): when every goal of the active non-terminal stage is met, the
invocation schedules exactly one 750 ms deferred advance to `stageIndex + 1`
(rather than applying it synchronously), the marker deduplicates the
advancement *log entry* across re-fires, and the duplicate deferred advances
commit the same stage index, so firing them repeatedly is idempotent. -/
theorem stageAdvance_spec (s : GameState) (m : ℕ) (activeStage : TutorialStage)
    (hst : TUTORIAL_STAGES.get? s.stageIndex = some activeStage)
    (hmet : goalsMet s activeStage = true)
    (hlt : s.stageIndex < TUTORIAL_STAGES.length - 1) :
    (stageAdvanceEffect s m).scheduled = [(750, s.stageIndex + 1)] ∧
    ((stageAdvanceEffect s m).logged = true ↔ m ≠ s.stageIndex + 1) ∧
    (stageAdvanceEffect s m).marker = s.stageIndex + 1 ∧
    applyStageTimeout (applyStageTimeout s (s.stageIndex + 1)) (s.stageIndex + 1)
      = applyStageTimeout s (s.stageIndex + 1) := by
  simp only [stageAdvanceEffect]
  rw [hst]
  dsimp only
  have hc : goalsMet s activeStage = true ∧ s.stageIndex < TUTORIAL_STAGES.length - 1 :=
    ⟨hmet, hlt⟩
  rw [if_pos hc]
  by_cases hm : m = s.stageIndex + 1
  · subst hm
    rw [if_neg (not_not_intro rfl)]
    exact ⟨rfl, by simp, rfl, rfl⟩
  · rw [if_pos hm]
    exact ⟨rfl, by simp [hm], rfl, rfl⟩

theorem stageAdvance_spec_witness :
    (TUTORIAL_STAGES.get? c4State.stageIndex = some ⟨0, [⟨.sunleaf, 20, .amount⟩]⟩ ∧
      goalsMet c4State ⟨0, [⟨.sunleaf, 20, .amount⟩]⟩ = true ∧
      c4State.stageIndex < TUTORIAL_STAGES.length - 1) ∧
    (stageAdvanceEffect c4State 0).scheduled = [(750, c4State.stageIndex + 1)] :=
  ⟨⟨by with_unfolding_all decide, by with_unfolding_all decide, by with_unfolding_all decide⟩,
   (stageAdvance_spec c4State 0 ⟨0, [⟨.sunleaf, 20, .amount⟩]⟩
      (by with_unfolding_all decide) (by with_unfolding_all decide)
      (by with_unfolding_all decide)).1⟩

/-! ## C7 — chapter unlocks: batched, ordered, monotonic, idempotent -/

/-- The batch of chapters the scan unlocks from state `s`. -/
def newChapters (s : GameState) : List StoryChapter :=
  STORY_CHAPTERS.filter fun c =>
    ¬ s.unlockedChapters.contains c.id ∧ isTriggerMet s c.trigger

theorem chapterUnlockEffect_def (s : GameState) :
    chapterUnlockEffect s =
      if newChapters s = [] then s
      else
        { s with
          unlockedChapters := s.unlockedChapters ++ (newChapters s).map (·.id)
          activeChapterId := (((newChapters s).getLast?).map (·.id)).getD s.activeChapterId
          log := pushLog "Landlord posts a new chapter." s.log } := by
  rw [chapterUnlockEffect, if_neg (by decide : ¬ STORY_CHAPTERS = [])]
  rfl

theorem chapterUnlockEffect_stageIndex (s : GameState) :
    (chapterUnlockEffect s).stageIndex = s.stageIndex := by
  rw [chapterUnlockEffect_def]; split <;> rfl

theorem chapterUnlockEffect_resources (s : GameState) :
    (chapterUnlockEffect s).resources = s.resources := by
  rw [chapterUnlockEffect_def]; split <;> rfl

theorem chapterUnlockEffect_milestones (s : GameState) :
    (chapterUnlockEffect s).milestones = s.milestones := by
  rw [chapterUnlockEffect_def]; split <;> rfl

theorem chapterUnlockEffect_completedPurchases (s : GameState) :
    (chapterUnlockEffect s).completedPurchases = s.completedPurchases := by
  rw [chapterUnlockEffect_def]; split <;> rfl

theorem isTriggerMet_chapterUnlockEffect (s : GameState) (t : StoryTrigger) :
    isTriggerMet (chapterUnlockEffect s) t = isTriggerMet s t := by
  cases t with
  | stage n => simp [isTriggerMet, chapterUnlockEffect_stageIndex]
  | purchase i => simp [isTriggerMet, chapterUnlockEffect_completedPurchases]
  | milestone l => simp [isTriggerMet, chapterUnlockEffect_milestones]
  | resource key amt =>
    simp only [isTriggerMet, chapterUnlockEffect_resources]

theorem chapterUnlockEffect_unlocked (s : GameState) :
    (chapterUnlockEffect s).unlockedChapters
      = s.unlockedChapters ++ (newChapters s).map (·.id) := by
  rw [chapterUnlockEffect_def]
  split
  · rename_i h; rw [h]; simp
  · rfl

/-- C7: the chapter scan unlocks all newly satisfied chapters in one batch
appended in catalog order, makes the last chapter of the batch active, never
removes an unlocked chapter, and is idempotent. -/
theorem chapterUnlock_spec (s : GameState) :
    ((chapterUnlockEffect s).unlockedChapters
        = s.unlockedChapters ++ (newChapters s).map (·.id)) ∧
    (∀ c, c ∈ s.unlockedChapters → c ∈ (chapterUnlockEffect s).unlockedChapters) ∧
    (∀ lastC, (newChapters s).getLast? = some lastC →
        (chapterUnlockEffect s).activeChapterId = lastC.id) ∧
    chapterUnlockEffect (chapterUnlockEffect s) = chapterUnlockEffect s := by
  refine ⟨chapterUnlockEffect_unlocked s, ?_, ?_, ?_⟩
  · intro c hc
    rw [chapterUnlockEffect_unlocked]
    exact List.mem_append_left _ hc
  · intro lastC hlast
    have hne : newChapters s ≠ [] := by
      intro h; rw [h] at hlast; simp at hlast
    rw [chapterUnlockEffect_def, if_neg hne, hlast]
    rfl
  · have hempty : newChapters (chapterUnlockEffect s) = [] := by
      rw [newChapters, List.filter_eq_nil_iff]
      intro c hc
      simp only [decide_eq_true_eq, not_and]
      intro hnotin
      rw [isTriggerMet_chapterUnlockEffect]
      intro hmet2
      apply hnotin
      rw [chapterUnlockEffect_unlocked, List.elem_iff]
      by_cases hin : c.id ∈ s.unlockedChapters
      · exact List.mem_append_left _ hin
      · refine List.mem_append_right _ (List.mem_map_of_mem _ ?_)
        rw [newChapters, List.mem_filter]
        refine ⟨hc, ?_⟩
        simp only [decide_eq_true_eq]
        exact ⟨fun hcontains => hin (List.elem_iff.mp hcontains), hmet2⟩
    rw [chapterUnlockEffect_def (chapterUnlockEffect s), if_pos hempty]

/-- A state at stage 2: the stage-2 trigger of `chapter-7` is newly
satisfied. -/
def c7State : GameState := { initialGameState with stageIndex := 2 }

theorem chapterUnlock_spec_witness :
    ((newChapters c7State).getLast? = some ⟨"chapter-7", .stage 2⟩ ∧
      "chapter-1" ∈ c7State.unlockedChapters) ∧
    (chapterUnlockEffect c7State).activeChapterId = "chapter-7" ∧
    "chapter-1" ∈ (chapterUnlockEffect c7State).unlockedChapters :=
  ⟨⟨by with_unfolding_all decide, by decide⟩,
   (chapterUnlock_spec c7State).2.2.1 ⟨"chapter-7", .stage 2⟩ (by with_unfolding_all decide),
   (chapterUnlock_spec c7State).2.1 "chapter-1" (by decide)⟩

/-! ## C1 — persistence codec: round trip, but partial documents do not
fully default -/

/-- A pre-load session state whose sunleaf cooldown is mid-countdown. -/
def c1Prior : GameState :=
  { initialGameState with manualCooldowns := ⟨7, 0, 0, 0, 0, 0⟩ }

/-- C1 counterexample: deserializing the hand-crafted empty document `{}` does
*not* reset every missing field to its initial/default value — the
`if`-without-`else` guarded `manualCooldowns` keeps the pre-load session value
(7 instead of the default 0), and `showIntroDialogue` comes out `false`
although its initial value is `true` (likewise `unlockedChapters` comes out
`[]` although the initial state holds the first chapter). -/
theorem deserialize_partial_not_defaults :
    (deserializeState c1Prior emptyDoc).manualCooldowns.sunleaf = 7 ∧
    initialGameState.manualCooldowns.sunleaf = 0 ∧
    (deserializeState c1Prior emptyDoc).showIntroDialogue = false ∧
    initialGameState.showIntroDialogue = true ∧
    (deserializeState c1Prior emptyDoc).unlockedChapters = [] ∧
    initialGameState.unlockedChapters = ["chapter-1"] := by
  with_unfolding_all decide

/-- C1 (amended): serializing a state and deserializing the resulting document
reproduces every document-backed field of the observable state (round-trip
law); deserializing a hand-crafted partial document never throws, and fields
restored through ternaries fall back to fixed values, but the fields guarded
by `if` without `else` (`manualCooldowns`, `manualHarvestActive`,
`craftingProgress`, `equippedTools`, `manuallyUnlockedResources`) retain the
pre-load session state instead of resetting, and the fixed fallbacks for
`showIntroDialogue` (false) and `unlockedChapters` (`[]`) differ from the
initial values. -/
theorem codec_round_trip_spec (p s : GameState)
    (hlog : s.log.length ≤ 6)
    (hm : (s.skills.get .mining).level ≤ MAX_SKILL_LEVEL)
    (hg : (s.skills.get .gathering).level ≤ MAX_SKILL_LEVEL) :
    (let t := deserializeState p (serializeState s)
     t.resources = s.resources ∧ t.tick = s.tick ∧ t.stageIndex = s.stageIndex ∧
     t.showTutorial = s.showTutorial ∧ t.showIntroDialogue = s.showIntroDialogue ∧
     t.introIndex = s.introIndex ∧ t.unlockedChapters = s.unlockedChapters ∧
     t.activeChapterId = s.activeChapterId ∧ t.milestones = s.milestones ∧
     t.completedPurchases = s.completedPurchases ∧ t.purchaseCounts = s.purchaseCounts ∧
     t.civilizationLevel = s.civilizationLevel ∧ t.manualCooldowns = s.manualCooldowns ∧
     t.manualHarvestActive = s.manualHarvestActive ∧ t.log = s.log ∧
     t.districts = s.districts ∧ t.craftingRecipe = s.craftingRecipe ∧
     t.craftingProgress = s.craftingProgress ∧ t.equippedTools = s.equippedTools ∧
     t.facilityCounts = s.facilityCounts ∧ t.selectedFacilityId = s.selectedFacilityId ∧
     t.tenantRecruitCooldown = s.tenantRecruitCooldown ∧
     t.pendingTenants = s.pendingTenants ∧ t.tenantTimeout = s.tenantTimeout ∧
     t.assignedTenants = s.assignedTenants ∧ t.tenantMorale = s.tenantMorale ∧
     t.autoPayWages = s.autoPayWages ∧ t.lastPayDay = s.lastPayDay ∧
     t.skills = s.skills ∧ t.resourceWorkers = s.resourceWorkers ∧
     t.manuallyUnlockedResources = s.manuallyUnlockedResources) ∧
    deserializeState p emptyDoc =
      { initialGameState with
        unlockedChapters := []
        showIntroDialogue := false
        manualCooldowns := p.manualCooldowns
        manualHarvestActive := p.manualHarvestActive
        craftingProgress := p.craftingProgress
        pendingAllocation := p.pendingAllocation
        equippedTools := p.equippedTools
        manuallyUnlockedResources := p.manuallyUnlockedResources } := by
  constructor
  · refine ⟨rfl, rfl, rfl, rfl, rfl, rfl, rfl, rfl, rfl, rfl, rfl, rfl, rfl, rfl,
      ?_, rfl, rfl, rfl, rfl, rfl, rfl, rfl, rfl, rfl, rfl, rfl, rfl, rfl, ?_, rfl, rfl⟩
    · exact List.take_of_length_le hlog
    · show (⟨⟨min MAX_SKILL_LEVEL (s.skills.get .mining).level,
              (s.skills.get .mining).experience⟩,
            ⟨min MAX_SKILL_LEVEL (s.skills.get .gathering).level,
              (s.skills.get .gathering).experience⟩⟩ : SkillMap SkillData) = s.skills
      rw [min_eq_right hm, min_eq_right hg]
      rfl
  · rfl

theorem codec_round_trip_spec_witness :
    (c7State.log.length ≤ 6 ∧
      (c7State.skills.get .mining).level ≤ MAX_SKILL_LEVEL ∧
      (c7State.skills.get .gathering).level ≤ MAX_SKILL_LEVEL) ∧
    (deserializeState initialGameState (serializeState c7State)).stageIndex
      = c7State.stageIndex :=
  ⟨⟨by decide, by with_unfolding_all decide, by with_unfolding_all decide⟩,
   (codec_round_trip_spec initialGameState c7State (by decide)
      (by with_unfolding_all decide) (by with_unfolding_all decide)).1.2.2.1⟩

/-! ## C3 — per-tick production formula -/

/-- Modelled from the claim's (amended) wording: the season multiplier is
index-selected from the fixed 4-element table when the index is in range, and
falls back to `1` on the 365th day of each year, where
`seasonIndexOf` computes to `4` — one past the end of the table. -/
def claimSeasonMultiplier (i : ℕ) : ℚ :=
  if h : i < SUNLEAF_SEASON_MULTIPLIERS.length then SUNLEAF_SEASON_MULTIPLIERS.get ⟨i, h⟩
  else 1

/-- Modelled from the claim's wording: `totalRate = rate × assignedWorkers +
passiveDistrictRate`, multiplied by the season multiplier when the resource is
sunleaf. -/
def claimTotalRate (s : GameState) (k : ResourceKey) : ℚ :=
  ((s.resources.get k).rate * (s.resourceWorkers.get k : ℚ) + passiveRate s.districts k) *
    (if k = .sunleaf then claimSeasonMultiplier (seasonIndexOf s.tick) else 1)

theorem sunleafMultiplierOf_eq_claim (i : ℕ) :
    sunleafMultiplierOf i = claimSeasonMultiplier i := by
  match i with
  | 0 => with_unfolding_all decide
  | 1 => with_unfolding_all decide
  | 2 => with_unfolding_all decide
  | 3 => with_unfolding_all decide
  | (n + 4) =>
    have h1 : SUNLEAF_SEASON_MULTIPLIERS.get? (n + 4) = none := by
      rw [List.get?_eq_none]
      simp [SUNLEAF_SEASON_MULTIPLIERS]
    rw [sunleafMultiplierOf, h1, claimSeasonMultiplier,
      dif_neg (by simp [SUNLEAF_SEASON_MULTIPLIERS])]

/-- A state on day 365 (tick 1456): sunleaf rate 1, one assigned worker, no
districts. -/
def c3State : GameState :=
  { initialGameState with
    tick := 1456
    resources := { INITIAL_RESOURCES with sunleaf := ⟨0, 1, 40⟩ }
    resourceWorkers := ⟨1, 0, 0, 0, 0, 0⟩ }

/-- C3 counterexample: on the 365th day of a year the computed season index is
4, one past the end of the 4-element multiplier table, and the effective
multiplier is the `|| 1` fallback: the produced increment (`1/4`) does not
match the claimed formula for *any* multiplier drawn from the fixed 4-element
table. -/
theorem production_day365_counterexample :
    seasonIndexOf c3State.tick = 4 ∧
    ((productionEffect c3State).resources.get .sunleaf).amount = 1/4 ∧
    ∀ m ∈ SUNLEAF_SEASON_MULTIPLIERS,
      min (40 : ℚ) (max 0 (0 + ((1 * 1 + 0) * m) / 4)) ≠ 1/4 := by
  with_unfolding_all decide

/-- C3 (amended): on tick 0 no production is applied; on any later tick, each
resource with a nonnegative total rate is advanced by `rate × assignedWorkers
+ passiveDistrictRate`, multiplied (for sunleaf) by the season multiplier —
taken from the fixed 4-element table for season indices 0–3 and falling back
to 1 on the out-of-table index 4 reached on each year's 365th day — divided by
the 4 ticks per day and clamped into `[0, capacity]`; rate and capacity are
untouched. -/
theorem production_spec (s : GameState) (k : ResourceKey)
    (hb0 : 0 ≤ (s.resources.get k).amount)
    (hb1 : (s.resources.get k).amount ≤ (s.resources.get k).capacity) :
    (s.tick = 0 → productionEffect s = s) ∧
    (s.tick ≠ 0 → 0 ≤ claimTotalRate s k →
      (productionEffect s).resources.get k =
        { s.resources.get k with
          amount := min (s.resources.get k).capacity
            (max 0 ((s.resources.get k).amount + claimTotalRate s k / 4)) }) := by
  constructor
  · intro h0
    simp [productionEffect, h0]
  · intro hne htr
    simp only [productionEffect, if_neg hne, ResMap.get_ofFun]
    have heq :
        (if k = .sunleaf then
            ((s.resources.get k).rate * (s.resourceWorkers.get k : ℚ) +
                passiveRate s.districts k) * sunleafMultiplierOf (seasonIndexOf s.tick)
          else
            (s.resources.get k).rate * (s.resourceWorkers.get k : ℚ) +
              passiveRate s.districts k)
          = claimTotalRate s k := by
      rw [claimTotalRate]
      split_ifs with hk
      · rw [sunleafMultiplierOf_eq_claim]
      · ring
    rw [produceResource]
    simp only [heq]
    rcases lt_or_eq_of_le htr with hpos | hzero
    · rw [if_neg (not_le.mpr hpos), if_neg (by positivity)]
    · rw [if_pos (le_of_eq hzero.symm)]
      rw [← hzero]
      have : (s.resources.get k).amount + 0 / 4 = (s.resources.get k).amount := by ring
      rw [this, max_eq_right hb0, min_eq_right hb1]

theorem production_spec_witness :
    (0 ≤ (c3State.resources.get .sunleaf).amount ∧
      (c3State.resources.get .sunleaf).amount ≤ (c3State.resources.get .sunleaf).capacity ∧
      c3State.tick ≠ 0 ∧ 0 ≤ claimTotalRate c3State .sunleaf) ∧
    (productionEffect c3State).resources.get .sunleaf =
      { c3State.resources.get .sunleaf with
        amount := min (c3State.resources.get .sunleaf).capacity
          (max 0 ((c3State.resources.get .sunleaf).amount
            + claimTotalRate c3State .sunleaf / 4)) } :=
  ⟨⟨by with_unfolding_all decide, by with_unfolding_all decide, by decide,
      by with_unfolding_all decide⟩,
   (production_spec c3State .sunleaf (by with_unfolding_all decide)
      (by with_unfolding_all decide)).2 (by decide) (by with_unfolding_all decide)⟩

/-! ## C9 — morale-driven attrition -/

theorem removeWorkersStep_nonneg (acc : ResMap ℤ × ℤ) (k0 : ResourceKey)
    (h : ∀ k, 0 ≤ acc.1.get k) :
    ∀ k, 0 ≤ (removeWorkersStep acc k0).1.get k := by
  intro k
  rw [removeWorkersStep]
  split
  · exact h k
  · dsimp only
    by_cases hk : k = k0
    · subst hk
      rw [ResMap.get_set_self]
      exact sub_nonneg.mpr (min_le_left _ _)
    · rw [ResMap.get_set_ne _ _ _ _ hk]
      exact h k

theorem foldl_removeWorkersStep_nonneg (l : List ResourceKey) (acc : ResMap ℤ × ℤ)
    (h : ∀ k, 0 ≤ acc.1.get k) :
    ∀ k, 0 ≤ (l.foldl removeWorkersStep acc).1.get k := by
  induction l generalizing acc with
  | nil => exact h
  | cons a t ih => exact ih _ (removeWorkersStep_nonneg acc a h)

theorem removeExcessWorkers_nonneg (w : ResMap ℤ) (excess : ℤ)
    (h : ∀ k, 0 ≤ w.get k) : ∀ k, 0 ≤ (removeExcessWorkers w excess).get k :=
  foldl_removeWorkersStep_nonneg ResourceKey.all (w, excess) h

/-- A state with two tenants at morale 40 on a day with unpaid wages. -/
def c9State : GameState :=
  { initialGameState with assignedTenants := 2, tenantMorale := [40, 40] }

/-- A deterministic roll: only the tenant at index 0 departs. -/
def c9Oracle : ℕ → Bool := fun i => decide (i = 0)

/-- C9 counterexample: attrition is *not* run once per new day — the effect is
gated only on `currentDay ≠ lastPayDay`, so a second invocation within the
same day (triggered by its own state change) rolls again: here the same day
sees two departures across two invocations. -/
theorem attrition_not_once_per_day :
    dayOf (attritionEffect c9Oracle c9State).tick = dayOf c9State.tick ∧
    (attritionEffect c9Oracle c9State).assignedTenants = 1 ∧
    (attritionEffect c9Oracle (attritionEffect c9Oracle c9State)).assignedTenants = 0 ∧
    attritionEffect c9Oracle (attritionEffect c9Oracle c9State)
      ≠ attritionEffect c9Oracle c9State := by
  with_unfolding_all decide

/-- C9 (amended): on every invocation of the attrition effect while the
current day differs from `lastPayDay` (not merely once per new day), each
tenant with morale < 50 departs according to its independent roll; the
departures decrement `assignedTenants`, remove exactly the departing morale
entries, and the forced unassignment of excess workers (walking resource keys
in enumeration order) never drives any worker count negative. -/
theorem attrition_spec (o : ℕ → Bool) (s : GameState)
    (hW : ∀ k, 0 ≤ s.resourceWorkers.get k)
    (ha : s.assignedTenants ≠ 0) (hm : s.tenantMorale ≠ [])
    (hd : dayOf s.tick ≠ s.lastPayDay) :
    ((s.tenantMorale.enum.filter (departs o)).length ≠ 0 →
      (attritionEffect o s).assignedTenants
          = s.assignedTenants - (s.tenantMorale.enum.filter (departs o)).length ∧
      (attritionEffect o s).tenantMorale
          = (s.tenantMorale.enum.filter fun p => ! departs o p).map Prod.snd ∧
      (attritionEffect o s).tenantMorale.length
          = s.tenantMorale.length - (s.tenantMorale.enum.filter (departs o)).length ∧
      (∀ k, 0 ≤ (attritionEffect o s).resourceWorkers.get k)) ∧
    ((s.tenantMorale.enum.filter (departs o)).length = 0 → attritionEffect o s = s) := by
  have hg1 : ¬ (s.assignedTenants = 0 ∨ s.tenantMorale = []) := by
    push_neg; exact ⟨ha, hm⟩
  constructor
  · intro hdep
    simp only [attritionEffect, if_neg hg1, if_neg hd, if_neg hdep]
    refine ⟨trivial, trivial, ?_, ?_⟩
    · rw [List.length_map]
      have hsplit := List.length_eq_length_filter_add (l := s.tenantMorale.enum) (departs o)
      rw [List.enum_length] at hsplit
      omega
    · intro k
      split
      · exact removeExcessWorkers_nonneg _ _ hW k
      · exact hW k
  · intro hdep
    simp only [attritionEffect, if_neg hg1, if_neg hd, if_pos hdep]

theorem attrition_spec_witness :
    ((∀ k, 0 ≤ c9State.resourceWorkers.get k) ∧ c9State.assignedTenants ≠ 0 ∧
      c9State.tenantMorale ≠ [] ∧ dayOf c9State.tick ≠ c9State.lastPayDay ∧
      (c9State.tenantMorale.enum.filter (departs c9Oracle)).length = 1) ∧
    (attritionEffect c9Oracle c9State).assignedTenants
        = c9State.assignedTenants
            - (c9State.tenantMorale.enum.filter (departs c9Oracle)).length :=
  ⟨⟨by decide, by decide, by with_unfolding_all decide, by decide,
      by with_unfolding_all decide⟩,
   ((attrition_spec c9Oracle c9State (by decide) (by decide)
      (by with_unfolding_all decide) (by decide)).1
      (by with_unfolding_all decide)).1⟩

/-! ## C2 — resource amounts stay within `[0, capacity]`

The invariant of reachable play states: amounts are clamped in
`[0, capacity]`, capacities are nonnegative integers (all initial capacities
and every capacity increment in the catalogs are integers — needed because
`Number(x.toFixed(1))` rounds *after* clamping and could otherwise creep a
tenth above a fractional capacity), any pending capacity allocation carries a
nonnegative integer boost, and the morale array never outruns
`assignedTenants` (which keeps the wage bill nonnegative). -/

def paOk : Option (String × ℚ) → Prop
  | none => True
  | some rb => 0 ≤ rb.2 ∧ rb.2.den = 1

instance : (o : Option (String × ℚ)) → Decidable (paOk o)
  | none => .isTrue trivial
  | some _ => inferInstanceAs (Decidable (_ ∧ _))

def ResBounds (m : ResMap ResData) : Prop :=
  ∀ k, 0 ≤ (m.get k).amount ∧ (m.get k).amount ≤ (m.get k).capacity

def CapOk (m : ResMap ResData) : Prop :=
  ∀ k, 0 ≤ (m.get k).capacity ∧ ((m.get k).capacity).den = 1

def ResInv (s : GameState) : Prop :=
  ResBounds s.resources ∧ CapOk s.resources ∧ paOk s.pendingAllocation ∧
    (s.tenantMorale.length : ℤ) ≤ s.assignedTenants

instance (m : ResMap ResData) : Decidable (ResBounds m) := by
  unfold ResBounds; infer_instance

instance (m : ResMap ResData) : Decidable (CapOk m) := by
  unfold CapOk; infer_instance

instance (s : GameState) : Decidable (ResInv s) := by
  unfold ResInv; infer_instance

theorem ResInv.of_eq {s t : GameState} (h : ResInv s)
    (hres : t.resources = s.resources)
    (hpa : t.pendingAllocation = s.pendingAllocation)
    (hm : t.tenantMorale = s.tenantMorale)
    (ha : t.assignedTenants = s.assignedTenants) : ResInv t := by
  unfold ResInv
  rw [hres, hpa, hm, ha]
  exact h

theorem den_one_add {a b : ℚ} (ha : a.den = 1) (hb : b.den = 1) : (a + b).den = 1 := by
  have ha' := (Rat.den_eq_one_iff a).mp ha
  have hb' := (Rat.den_eq_one_iff b).mp hb
  have : a + b = ((a.num + b.num : ℤ) : ℚ) := by push_cast; rw [ha', hb']
  rw [this, Rat.den_intCast]

theorem den_one_max_zero {a : ℚ} (ha : a.den = 1) : (max 0 a).den = 1 := by
  rcases le_total 0 a with h | h
  · rw [max_eq_right h]; exact ha
  · rw [max_eq_left h]; rfl

/-- `Number(clamp(x).toFixed(1))` stays in `[0, capacity]` provided the
capacity is a nonnegative integer. -/
theorem round1_bounds {y cap : ℚ} (h0 : 0 ≤ y) (hc : y ≤ cap) (hden : cap.den = 1) :
    0 ≤ round1 y ∧ round1 y ≤ cap := by
  have hcap : (cap.num : ℚ) = cap := (Rat.den_eq_one_iff cap).mp hden
  constructor
  · rw [round1]
    apply div_nonneg _ (by norm_num)
    have : (0 : ℤ) ≤ ⌊y * 10 + 1/2⌋ := by
      apply Int.floor_nonneg.mpr
      nlinarith
    exact_mod_cast this
  · rw [round1]
    have hfl : ⌊y * 10 + 1/2⌋ ≤ cap.num * 10 := by
      have hlt : y * 10 + 1/2 < ((cap.num * 10 + 1 : ℤ) : ℚ) := by
        push_cast
        nlinarith [hcap]
      have := Int.floor_lt.mpr hlt
      omega
    have hflq : ((⌊y * 10 + 1/2⌋ : ℤ) : ℚ) ≤ ((cap.num * 10 : ℤ) : ℚ) := by
      exact_mod_cast hfl
    calc ((⌊y * 10 + 1/2⌋ : ℤ) : ℚ) / 10 ≤ ((cap.num * 10 : ℤ) : ℚ) / 10 :=
          (div_le_div_iff_of_pos_right (by norm_num)).mpr hflq
      _ = cap := by push_cast; rw [mul_div_assoc]; norm_num; exact hcap

theorem applyResourceDelta_preserves (m : ResMap ResData) (d : ResourceDelta)
    (hb : ResBounds m) (hc : CapOk m) :
    ResBounds (applyResourceDelta m d) ∧ CapOk (applyResourceDelta m d) := by
  constructor <;> intro k <;> simp only [applyResourceDelta, ResMap.get_ofFun] <;> split
  · exact hb k
  · dsimp only
    have h0 : 0 ≤ min (m.get k).capacity (max 0 ((m.get k).amount + d.lookup k)) :=
      le_min (hc k).1 (le_max_left 0 _)
    have h1 : min (m.get k).capacity (max 0 ((m.get k).amount + d.lookup k))
        ≤ (m.get k).capacity := min_le_left _ _
    exact round1_bounds h0 h1 (hc k).2
  · exact hc k
  · exact hc k

theorem applyRateDelta_preserves (m : ResMap ResData) (d : ResourceDelta)
    (hb : ResBounds m) (hc : CapOk m) :
    ResBounds (applyRateDelta m d) ∧ CapOk (applyRateDelta m d) := by
  constructor <;> intro k <;> simp only [applyRateDelta, ResMap.get_ofFun] <;> split
  · exact hb k
  · exact hb k
  · exact hc k
  · exact hc k

theorem applyCapacityDelta_preserves (m : ResMap ResData) (d : ResourceDelta)
    (hb : ResBounds m) (hc : CapOk m)
    (hd : ∀ k : ResourceKey, 0 ≤ d.lookup k ∧ (d.lookup k).den = 1) :
    ResBounds (applyCapacityDelta m d) ∧ CapOk (applyCapacityDelta m d) := by
  constructor <;> intro k <;> simp only [applyCapacityDelta, ResMap.get_ofFun] <;> split
  · exact hb k
  · dsimp only
    refine ⟨(hb k).1, ?_⟩
    have hd0 := (hd k).1
    have : (m.get k).capacity ≤ max 0 ((m.get k).capacity + d.lookup k) :=
      le_max_of_le_right (by linarith)
    exact le_trans (hb k).2 this
  · exact hc k
  · dsimp only
    exact ⟨le_max_left 0 _, den_one_max_zero (den_one_add (hc k).2 (hd k).2)⟩

theorem produceResource_preserves_one (s : GameState) (k : ResourceKey)
    (hbk : 0 ≤ (s.resources.get k).amount ∧
      (s.resources.get k).amount ≤ (s.resources.get k).capacity)
    (hck : 0 ≤ (s.resources.get k).capacity ∧
      ((s.resources.get k).capacity).den = 1) :
    (0 ≤ (produceResource s k).amount ∧
      (produceResource s k).amount ≤ (produceResource s k).capacity) ∧
    (0 ≤ (produceResource s k).capacity ∧ ((produceResource s k).capacity).den = 1) := by
  rw [produceResource]
  dsimp only
  split_ifs <;>
    first
      | exact ⟨hbk, hck⟩
      | exact ⟨⟨le_min hck.1 (le_max_left 0 _), min_le_left _ _⟩, hck⟩

theorem produceResource_preserves (s : GameState)
    (hb : ResBounds s.resources) (hc : CapOk s.resources) :
    ResBounds (ResMap.ofFun (produceResource s)) ∧
      CapOk (ResMap.ofFun (produceResource s)) := by
  constructor <;> intro k <;> simp only [ResMap.get_ofFun]
  · exact (produceResource_preserves_one s k (hb k) (hc k)).1
  · exact (produceResource_preserves_one s k (hb k) (hc k)).2

/-- Per-key wellformedness of an optional capacity-delta record. -/
def capDeltaOk : Option ResourceDelta → Prop
  | none => True
  | some cd => ∀ k : ResourceKey, 0 ≤ cd.lookup k ∧ (cd.lookup k).den = 1

instance : (o : Option ResourceDelta) → Decidable (capDeltaOk o)
  | none => .isTrue trivial
  | some _ => inferInstanceAs (Decidable (∀ _, _ ∧ _))

/-- Every capacity delta in the council catalog is a nonnegative integer. -/
theorem actions_capacityDelta_ok : ∀ a ∈ ACTIONS, capDeltaOk a.capacityDelta := by
  with_unfolding_all decide

/-- Every item-recipe capacity boost is a nonnegative integer. -/
theorem recipes_capacityBoost_ok :
    ∀ r ∈ RECIPES, 0 ≤ r.capacityBoost ∧ r.capacityBoost.den = 1 := by
  with_unfolding_all decide

theorem handleActionResources_preserves (a : CouncilAction) (m : ResMap ResData)
    (hb : ResBounds m) (hc : CapOk m) (hcap : capDeltaOk a.capacityDelta) :
    ResBounds (handleActionResources a m) ∧ CapOk (handleActionResources a m) := by
  rw [handleActionResources]
  have h1 : ResBounds (match a.delta with
        | some d => applyResourceDelta m d
        | none => m) ∧
      CapOk (match a.delta with
        | some d => applyResourceDelta m d
        | none => m) := by
    cases a.delta with
    | none => exact ⟨hb, hc⟩
    | some d => exact applyResourceDelta_preserves m d hb hc
  revert h1
  generalize (match a.delta with
    | some d => applyResourceDelta m d
    | none => m) = m1
  intro h1
  have h2 : ResBounds (match a.rateDelta, a.duration with
        | some d, none => applyRateDelta m1 d
        | _, _ => m1) ∧
      CapOk (match a.rateDelta, a.duration with
        | some d, none => applyRateDelta m1 d
        | _, _ => m1) := by
    cases a.rateDelta with
    | none => exact h1
    | some d =>
      cases a.duration with
      | none => exact applyRateDelta_preserves m1 d h1.1 h1.2
      | some n => exact h1
  revert h2
  generalize (match a.rateDelta, a.duration with
    | some d, none => applyRateDelta m1 d
    | _, _ => m1) = m2
  intro h2
  cases hcd : a.capacityDelta with
  | none => exact h2
  | some cd =>
    rw [hcd] at hcap
    exact applyCapacityDelta_preserves m2 cd h2.1 h2.2 hcap

/-! Preservation of `ResInv` by every event. -/

theorem resInv_tickStep {s : GameState} (h : ResInv s) : ResInv (tickStep s) := by
  rw [tickStep, productionEffect]
  split_ifs
  · exact h.of_eq rfl rfl rfl rfl
  · obtain ⟨hb, hc⟩ := produceResource_preserves { s with tick := s.tick + 1 } h.1 h.2.1
    exact ⟨hb, hc, h.2.2.1, h.2.2.2⟩

theorem resInv_harvest {s : GameState} (k : ResourceKey) (h : ResInv s) :
    ResInv (handleManualHarvest s k) := by
  rw [handleManualHarvest]
  split_ifs
  · exact h
  · refine ⟨?_, ?_, h.2.2.1, h.2.2.2⟩
    · exact (applyResourceDelta_preserves _ _ h.1 h.2.1).1
    · exact (applyResourceDelta_preserves _ _ h.1 h.2.1).2

theorem resInv_unlockResource {s : GameState} (k : ResourceKey) (h : ResInv s) :
    ResInv (handleUnlockResource s k) := by
  rw [handleUnlockResource]
  split
  · exact h
  · dsimp only
    split_ifs <;>
      first
        | exact h
        | { refine ⟨?_, ?_, h.2.2.1, h.2.2.2⟩
            · exact (applyResourceDelta_preserves _ _ h.1 h.2.1).1
            · exact (applyResourceDelta_preserves _ _ h.1 h.2.1).2 }

theorem resInv_expand {s : GameState} (id : String) (h : ResInv s) :
    ResInv (handleExpand s id) := by
  rw [handleExpand]
  split
  · exact h
  · split_ifs <;>
      first
        | exact h
        | { refine ⟨?_, ?_, h.2.2.1, h.2.2.2⟩
            · exact (applyRateDelta_preserves _ _
                (applyResourceDelta_preserves _ _ h.1 h.2.1).1
                (applyResourceDelta_preserves _ _ h.1 h.2.1).2).1
            · exact (applyRateDelta_preserves _ _
                (applyResourceDelta_preserves _ _ h.1 h.2.1).1
                (applyResourceDelta_preserves _ _ h.1 h.2.1).2).2 }

theorem resInv_demolish {s : GameState} (id : String) (h : ResInv s) :
    ResInv (handleDemolish s id) := by
  rw [handleDemolish]
  split
  · exact h
  · dsimp only
    split_ifs <;>
      first
        | exact h
        | { refine ⟨?_, ?_, h.2.2.1, h.2.2.2⟩
            · exact (applyRateDelta_preserves _ _ h.1 h.2.1).1
            · exact (applyRateDelta_preserves _ _ h.1 h.2.1).2 }

theorem resInv_startCraft {s : GameState} (rid : String) (h : ResInv s) :
    ResInv (handleStartCraft s rid) := by
  rw [handleStartCraft]
  split
  · exact h
  · split_ifs <;>
      first
        | exact h
        | { refine ⟨?_, ?_, h.2.2.1, h.2.2.2⟩
            · exact (applyResourceDelta_preserves _ _ h.1 h.2.1).1
            · exact (applyResourceDelta_preserves _ _ h.1 h.2.1).2 }

theorem resInv_startToolCraft {s : GameState} (rid : String) (h : ResInv s) :
    ResInv (handleStartToolCraft s rid) := by
  rw [handleStartToolCraft]
  split
  · exact h
  · split_ifs <;>
      first
        | exact h
        | { refine ⟨?_, ?_, h.2.2.1, h.2.2.2⟩
            · exact (applyResourceDelta_preserves _ _ h.1 h.2.1).1
            · exact (applyResourceDelta_preserves _ _ h.1 h.2.1).2 }

theorem resInv_craftSecond {s : GameState} (h : ResInv s) : ResInv (craftSecond s) := by
  rw [craftSecond.eq_def]
  cases hcr : s.craftingRecipe with
  | none => exact h
  | some rid =>
    dsimp only
    split_ifs with hp
    · exact h
    · cases hr : RECIPES.find? (fun r => r.id = rid) with
      | some recipe =>
        dsimp only
        split_ifs with hct
        · refine ⟨h.1, h.2.1, ?_, h.2.2.2⟩
          exact recipes_capacityBoost_ok recipe (List.mem_of_find?_eq_some hr)
        · exact h.of_eq rfl rfl rfl rfl
      | none =>
        cases ht : TOOL_RECIPES.find? (fun r => r.id = rid) with
        | some t =>
          dsimp only
          split_ifs with hct
          · exact h.of_eq rfl rfl rfl rfl
          · exact h.of_eq rfl rfl rfl rfl
        | none => exact h

theorem resInv_allocate {s : GameState} (k : ResourceKey) (h : ResInv s) :
    ResInv (handleAllocateCapacity s k) := by
  rw [handleAllocateCapacity]
  cases hpa : s.pendingAllocation with
  | none => exact h
  | some rb =>
    obtain ⟨rid, boost⟩ := rb
    dsimp only
    cases hr : RECIPES.find? (fun r => r.id = rid) with
    | none => exact h
    | some recipe =>
      have hboost : 0 ≤ boost ∧ boost.den = 1 := by
        have hp := h.2.2.1
        rw [hpa] at hp
        exact hp
      refine ⟨?_, ?_, trivial, h.2.2.2⟩
      · intro k'
        by_cases hk : k' = k
        · subst hk
          rw [ResMap.get_set_self]
          refine ⟨(h.1 k').1, le_trans (h.1 k').2 ?_⟩
          dsimp only
          linarith [hboost.1]
        · rw [ResMap.get_set_ne _ _ _ _ hk]
          exact h.1 k'
      · intro k'
        by_cases hk : k' = k
        · subst hk
          rw [ResMap.get_set_self]
          have hc0 := (h.2.1 k').1
          constructor
          · dsimp only
            linarith [hboost.1]
          · exact den_one_add (h.2.1 k').2 hboost.2
        · rw [ResMap.get_set_ne _ _ _ _ hk]
          exact h.2.1 k'

theorem resInv_buildFacility {s : GameState} (fid : String) (h : ResInv s) :
    ResInv (handleBuildFacility s fid) := by
  rw [handleBuildFacility]
  split
  · exact h
  · split_ifs <;>
      first
        | exact h
        | { refine ⟨?_, ?_, h.2.2.1, h.2.2.2⟩
            · exact (applyResourceDelta_preserves _ _ h.1 h.2.1).1
            · exact (applyResourceDelta_preserves _ _ h.1 h.2.1).2 }

theorem resInv_recruitTenants {s : GameState} (h : ResInv s) :
    ResInv (handleRecruitTenants s) := by
  rw [handleRecruitTenants]
  split_ifs <;> exact h.of_eq rfl rfl rfl rfl

theorem resInv_assignTenants {s : GameState} (h : ResInv s) :
    ResInv (handleAssignTenants s) := by
  simp only [handleAssignTenants]
  split_ifs with h1 h2
  · exact h
  · exact h
  · refine ⟨h.1, h.2.1, h.2.2.1, ?_⟩
    rw [List.length_append, List.length_replicate]
    have hlen := h.2.2.2
    have hpos : 0 < min s.pendingTenants (availableHousing s) := not_le.mp h2
    push_cast
    rw [Int.toNat_of_nonneg (le_of_lt hpos)]
    linarith

theorem resInv_assignWorker {s : GameState} (k : ResourceKey) (h : ResInv s) :
    ResInv (handleAssignWorker s k) := by
  rw [handleAssignWorker]
  split_ifs <;> exact h.of_eq rfl rfl rfl rfl

theorem resInv_unassignWorker {s : GameState} (k : ResourceKey) (h : ResInv s) :
    ResInv (handleUnassignWorker s k) := by
  rw [handleUnassignWorker]
  split_ifs <;> exact h.of_eq rfl rfl rfl rfl

theorem resInv_payWages {s : GameState} (h : ResInv s) : ResInv (handlePayWages s).1 := by
  simp only [handlePayWages]
  split_ifs with hlt
  · exact h.of_eq rfl rfl rfl rfl
  · have hta : (0 : ℤ) ≤ s.assignedTenants :=
      le_trans (Int.natCast_nonneg _) h.2.2.2
    have hw : 0 ≤ (s.assignedTenants : ℚ) * WAGE_PER_TENANT_PER_DAY := by
      have h0 : (0 : ℚ) ≤ (s.assignedTenants : ℚ) := by exact_mod_cast hta
      have h5 : (0 : ℚ) ≤ WAGE_PER_TENANT_PER_DAY := by rw [WAGE_PER_TENANT_PER_DAY]; norm_num
      exact mul_nonneg h0 h5
    have hge := not_lt.mp hlt
    refine ⟨?_, ?_, h.2.2.1, h.2.2.2⟩
    · intro k
      by_cases hk : k = .sunleaf
      · subst hk
        rw [ResMap.get_set_self]
        have hub := (h.1 .sunleaf).2
        constructor
        · dsimp only
          linarith
        · dsimp only
          linarith
      · rw [ResMap.get_set_ne _ _ _ _ hk]
        exact h.1 k
    · intro k
      by_cases hk : k = .sunleaf
      · subst hk
        rw [ResMap.get_set_self]
        exact h.2.1 .sunleaf
      · rw [ResMap.get_set_ne _ _ _ _ hk]
        exact h.2.1 k

theorem resInv_handleAction {s : GameState} (aid : String) (h : ResInv s) :
    ResInv (handleAction s aid) := by
  rw [handleAction]
  cases ha : ACTIONS.find? (fun a => a.id = aid) with
  | none => exact h
  | some a =>
    dsimp only
    split_ifs <;>
      first
        | exact h
        | { refine ⟨?_, ?_, h.2.2.1, h.2.2.2⟩
            · exact (handleActionResources_preserves a s.resources h.1 h.2.1
                (actions_capacityDelta_ok a (List.mem_of_find?_eq_some ha))).1
            · exact (handleActionResources_preserves a s.resources h.1 h.2.1
                (actions_capacityDelta_ok a (List.mem_of_find?_eq_some ha))).2 }

theorem resInv_wageEffect {s : GameState} (h : ResInv s) : ResInv (wageEffect s) := by
  rw [wageEffect]
  dsimp only
  split_ifs with h1
  · exact h
  all_goals {
    first
      | exact h.of_eq rfl rfl rfl rfl
      | exact (resInv_payWages h).of_eq rfl rfl rfl rfl
      | { refine ⟨(resInv_payWages h).1, (resInv_payWages h).2.1,
            (resInv_payWages h).2.2.1, ?_⟩
          rw [List.length_map]
          exact (resInv_payWages h).2.2.2 }
      | { refine ⟨h.1, h.2.1, h.2.2.1, ?_⟩
          rw [List.length_map]
          exact h.2.2.2 }
  }

theorem resInv_attrition {s : GameState} (o : ℕ → Bool) (h : ResInv s) :
    ResInv (attritionEffect o s) := by
  rw [attritionEffect]
  dsimp only
  split_ifs <;>
    first
      | exact h
      | { refine ⟨h.1, h.2.1, h.2.2.1, ?_⟩
          dsimp only
          rw [List.length_map]
          have hsplit := List.length_eq_length_filter_add (l := s.tenantMorale.enum) (departs o)
          rw [List.enum_length] at hsplit
          have hlen := h.2.2.2
          omega }

theorem resInv_chapterScan {s : GameState} (h : ResInv s) :
    ResInv (chapterUnlockEffect s) := by
  rw [chapterUnlockEffect_def]
  split_ifs
  · exact h
  · exact h.of_eq rfl rfl rfl rfl

theorem resInv_stageTimeout {s : GameState} (n : ℕ) (h : ResInv s) :
    ResInv (applyStageTimeout s n) :=
  h.of_eq rfl rfl rfl rfl

theorem resInv_cooldownSecond {s : GameState} (h : ResInv s) :
    ResInv (cooldownSecond s) := by
  rw [cooldownSecond]
  split_ifs <;> exact h.of_eq rfl rfl rfl rfl

theorem resInv_recruitCooldownSecond {s : GameState} (h : ResInv s) :
    ResInv (recruitCooldownSecond s) := by
  rw [recruitCooldownSecond]
  split_ifs <;> exact h.of_eq rfl rfl rfl rfl

theorem resInv_tenantTimeoutSecond {s : GameState} (h : ResInv s) :
    ResInv (tenantTimeoutSecond s) := by
  simp only [tenantTimeoutSecond]
  split_ifs <;> exact h.of_eq rfl rfl rfl rfl

theorem resInv_productionRerun {s : GameState} (h : ResInv s) :
    ResInv (productionEffect s) := by
  rw [productionEffect]
  split_ifs
  · exact h
  · obtain ⟨hb, hc⟩ := produceResource_preserves s h.1 h.2.1
    exact ⟨hb, hc, h.2.2.1, h.2.2.2⟩

theorem resInv_step (s : GameState) (e : GameEvent) (h : ResInv s) :
    ResInv (step s e) := by
  cases e with
  | tick => exact resInv_tickStep h
  | productionRerun => exact resInv_productionRerun h
  | harvest k => exact resInv_harvest k h
  | unlockResource k => exact resInv_unlockResource k h
  | expand id => exact resInv_expand id h
  | demolish id => exact resInv_demolish id h
  | startCraft rid => exact resInv_startCraft rid h
  | startToolCraft rid => exact resInv_startToolCraft rid h
  | craftSecond => exact resInv_craftSecond h
  | allocateCapacity k => exact resInv_allocate k h
  | buildFacility fid => exact resInv_buildFacility fid h
  | recruitTenants => exact resInv_recruitTenants h
  | assignTenants => exact resInv_assignTenants h
  | assignWorker k => exact resInv_assignWorker k h
  | unassignWorker k => exact resInv_unassignWorker k h
  | payWages => exact resInv_payWages h
  | councilAction aid => exact resInv_handleAction aid h
  | wageCheck => exact resInv_wageEffect h
  | attrition o => exact resInv_attrition o h
  | chapterScan => exact resInv_chapterScan h
  | stageTimeout n => exact resInv_stageTimeout n h
  | cooldownSecond => exact resInv_cooldownSecond h
  | recruitCooldownSecond => exact resInv_recruitCooldownSecond h
  | tenantTimeoutSecond => exact resInv_tenantTimeoutSecond h

/-- C2: from any state satisfying the reachable-state invariant (amounts in
bounds, integer capacities, wellformed pending allocation, morale array not
outrunning the tenant count — all true of the initial state), every tick and
every player-action mutation leaves every resource's amount within
`[0, capacity]`. -/
theorem resource_bounds_invariant (s : GameState) (e : GameEvent) (h : ResInv s) :
    ∀ k, 0 ≤ ((step s e).resources.get k).amount ∧
      ((step s e).resources.get k).amount ≤ ((step s e).resources.get k).capacity :=
  (resInv_step s e h).1

theorem resource_bounds_invariant_witness :
    ResInv initialGameState ∧
    (∀ k, 0 ≤ ((step initialGameState .tick).resources.get k).amount ∧
      ((step initialGameState .tick).resources.get k).amount
        ≤ ((step initialGameState .tick).resources.get k).capacity) :=
  ⟨by with_unfolding_all decide,
   resource_bounds_invariant initialGameState .tick (by with_unfolding_all decide)⟩

